import Mathlib

/-
Verification development for the configuration-translation core of the
product-microgateway adapter (file
adapter/internal/oasparser/envoyconf/routes_with_clusters.go).

The Go code is shallowly embedded: Go strings are modelled as Lean strings
operated on at the character-list level (Go works on UTF-8 bytes; for the
ASCII path, host and name material handled here the two views coincide),
Go int64 arithmetic is modelled as Int with explicit wrap-around at 2^64,
and the translator functions become pure Lean functions.  A Go runtime
panic caused by indexing an empty slice is modelled by an explicit
result constructor (PEResult.outOfRange) and, in the orchestrator, by
returning none.
-/

/-! ### Character-level models of the Go strings package functions -/

/-- Go strings.HasSuffix at character level. -/
def goHasSuffix (s t : String) : Bool :=
  t.data.isSuffixOf s.data

/-- List-level body of Go strings.TrimSuffix: remove t once if it is a suffix. -/
def trimSuffixL (l t : List Char) : List Char :=
  if t.isSuffixOf l then l.take (l.length - t.length) else l

/-- Go strings.TrimSuffix. -/
def goTrimSuffix (s t : String) : String :=
  ⟨trimSuffixL s.data t.data⟩

/-- List-level body of Go strings.TrimSpace (unicode.IsSpace is modelled by
Char.isWhitespace; the two agree on the ASCII whitespace appearing in the
inputs of this translator). -/
def trimSpaceL (l : List Char) : List Char :=
  ((l.dropWhile Char.isWhitespace).reverse.dropWhile Char.isWhitespace).reverse

/-- Go strings.TrimSpace. -/
def goTrimSpace (s : String) : String :=
  ⟨trimSpaceL s.data⟩

/-- Go strings.Contains: sub occurs contiguously inside s. -/
def goContains (s sub : String) : Bool :=
  decide (sub.data <:+: s.data)

/-- Go strings.HasPrefix. -/
def goHasPrefixStr (s t : String) : Bool :=
  t.data.isPrefixOf s.data

/-- Fuel-indexed loop of Go strings.Replace for a non-empty pattern
p0 :: ps.  Scans the subject left to right; each match consumes the
pattern, emits repl and decrements the remaining count n; n = 0 stops
further replacement and a negative n (Go convention) replaces every
occurrence.  Each step shortens the subject, so the wrapper below can
supply the subject length as fuel; recursion on fuel keeps every function
of this development evaluable inside the kernel. -/
def replaceLoopF (p0 : Char) (ps repl : List Char) : Nat → List Char → Int → List Char
  | _, [], _ => []
  | 0, s, _ => s
  | fuel + 1, c :: rest, n =>
    if n = 0 then c :: rest
    else if (p0 :: ps).isPrefixOf (c :: rest) then
      repl ++ replaceLoopF p0 ps repl fuel (rest.drop ps.length) (n - 1)
    else c :: replaceLoopF p0 ps repl fuel rest n

/-- The replacement loop at its natural fuel. -/
def replaceLoop (p0 : Char) (ps repl s : List Char) (n : Int) : List Char :=
  replaceLoopF p0 ps repl s.length s n

/-- Go strings.Replace s old new n.  The Go behaviour for an empty pattern
(inserting new at every character boundary) is not modelled; every caller in
the translated file passes a non-empty pattern. -/
def goReplace (s old new : String) (n : Int) : String :=
  match old.data with
  | [] => s
  | p0 :: ps => ⟨replaceLoop p0 ps new.data s.data n⟩

/-- Scanning accumulator for Go strings.LastIndex: i is the index of the head
of the remaining subject, acc the last matching index seen so far. -/
def lastIdxAux (pat : List Char) : List Char → Int → Int → Int
  | [], _, acc => acc
  | c :: rest, i, acc =>
    lastIdxAux pat rest (i + 1) (if pat.isPrefixOf (c :: rest) then i else acc)

/-- Go strings.LastIndex (character positions; -1 when absent). -/
def goLastIndex (s sub : String) : Int :=
  match sub.data with
  | [] => s.data.length
  | _ :: _ => lastIdxAux sub.data s.data 0 (-1)

/-- Go strings.Join with a separator. -/
def goJoin (sep : String) : List String → String
  | [] => ""
  | [x] => x
  | x :: y :: xs => x ++ sep ++ goJoin sep (y :: xs)

/-! ### Name Mint (getClusterName, source lines 443-451) -/

/-- Source expression strings.Replace(s, " ", "", -1): delete every space. -/
def stripSpaces (s : String) : String :=
  goReplace s " " "" (-1)

/-- getClusterName from the source: organization, endpoint prefix marker,
virtual host, space-stripped title and version are concatenated with
underscores and trimmed; a non-empty resource id appends an underscore, the
space-stripped id and the digit zero. -/
def getClusterName (epPfx organizationID vHost swaggerTitle swaggerVersion resourceID : String) : String :=
  if resourceID ≠ "" then
    goTrimSpace (organizationID ++ "_" ++ epPfx ++ "_" ++ vHost ++ "_" ++
        stripSpaces swaggerTitle ++ swaggerVersion) ++
      "_" ++ stripSpaces resourceID ++ "0"
  else
    goTrimSpace (organizationID ++ "_" ++ epPfx ++ "_" ++ vHost ++ "_" ++
        stripSpaces swaggerTitle ++ swaggerVersion)

/-- The cluster-name formula exactly as the specification states it
(spec section 4.1): trim(org + "_" + prefix + "_" + vHost + "_" +
stripSpaces(title) + version), with "_" + stripSpaces(resourceID) + "0"
appended when resourceID is non-empty. -/
def clusterNameSpec (epPfx organizationID vHost swaggerTitle swaggerVersion resourceID : String) : String :=
  let base := goTrimSpace (organizationID ++ "_" ++ epPfx ++ "_" ++ vHost ++ "_" ++
    stripSpaces swaggerTitle ++ swaggerVersion)
  if resourceID = "" then base else base ++ "_" ++ stripSpaces resourceID ++ "0"

/-! ### Data model (mirrors the model package structures used by the file) -/

/-- One upstream endpoint (model.Endpoint). -/
structure Endpoint where
  host : String := ""
  port : Nat := 0
  urlType : String := ""
  basepath : String := ""
  rawURL : String := ""
  serviceDiscoveryString : String := ""
deriving DecidableEq

/-- An endpoint group (model.EndpointCluster).  Retry and circuit-breaker
configuration and the HTTP2 flag only influence cluster fields that no claim
mentions and are elided. -/
structure EndpointCluster where
  endpointType : String := ""
  endpointPfx : String := ""
  endpoints : List Endpoint := []
deriving DecidableEq

/-- model.InterceptEndpoint.  requestTimeout is the raw int64 value of the
Go time.Duration field. -/
structure InterceptEndpoint where
  enable : Bool := false
  level : String := ""
  clusterName : String := ""
  requestTimeout : Int := 0
  endpointCluster : EndpointCluster := {}
deriving DecidableEq

/-- A resource of the API.  The request and response interceptor fields hold
the result of MgwSwagger.GetInterceptor on the resource vendor extensions and
the operation-level lists the declared operation interceptors keyed by
method; that lookup lives in the model package outside this file and is
carried here as data. -/
structure Resource where
  id : String := ""
  path : String := ""
  methods : List String := []
  prodEndpoints : Option EndpointCluster := none
  sandEndpoints : Option EndpointCluster := none
  reqInterceptor : InterceptEndpoint := {}
  respInterceptor : InterceptEndpoint := {}
  opReqInterceptors : List (String × InterceptEndpoint) := []
  opRespInterceptors : List (String × InterceptEndpoint) := []
  rewritePath : String := ""
  rewriteMethod : Bool := false
deriving DecidableEq

/-- The API description (model.MgwSwagger).  apiReqInterceptor and
apiRespInterceptor hold the result of GetInterceptor on the API vendor
extensions (API level), again carried as data. -/
structure MgwSwagger where
  title : String := ""
  version : String := ""
  apiType : String := ""
  xWso2Basepath : String := ""
  isDefaultVersion : Bool := false
  prodEndpoints : Option EndpointCluster := none
  sandEndpoints : Option EndpointCluster := none
  xWso2Endpoints : List (String × EndpointCluster) := []
  resources : List Resource := []
  apiReqInterceptor : InterceptEndpoint := {}
  apiRespInterceptor : InterceptEndpoint := {}
  xWso2RequestBodyPass : Bool := false
deriving DecidableEq

/-- Modelled from the spec: the websocket API type tag (constants.WS). -/
def WS : String := "WS"

/-- Modelled from the spec: pseudo-header carrying the HTTP method
(spec section 4.4). -/
def httpMethodHeader : String := ":method"

/-- Modelled from the spec: the cluster-selector header x-wso2-cluster-header
(spec section 6, observable headers). -/
def clusterHeaderName : String := "x-wso2-cluster-header"

/-- Modelled from the spec: the reserved named-endpoints cluster marker that
suppresses cluster creation for a group whose endpoint prefix mentions it
(spec section 4.5 step 1); the concrete constant lives outside this file. -/
def xWso2EPClustersConfigNamePfx : String := "xwso2cluster"

/-- Modelled from the spec: name prefix for request-interceptor clusters. -/
def requestInterceptClustersNamePfx : String := "reqInterceptor"

/-- Modelled from the spec: name prefix for response-interceptor clusters. -/
def responseInterceptClustersNamePfx : String := "resInterceptor"

/-- Modelled from the spec: interceptor level tag for operation scope. -/
def OperationLevelInterceptor : String := "operation"

/-! ### Endpoint Compiler (processEndpoints, source lines 494-676) -/

/-- A socket address produced by createAddress. -/
structure Address where
  host : String
  port : Nat
deriving DecidableEq

/-- A locality load-balance endpoint; priority increases per endpoint for
failover groups. -/
structure LbEndpoint where
  priority : Nat
  host : String
  port : Nat
deriving DecidableEq

/-- A proxy cluster.  TLS transport-socket matches, protocol options, health
checks and circuit breakers only carry configuration no claim mentions and
are elided; name and load assignment are kept. -/
structure Cluster where
  name : String
  lbEndpoints : List LbEndpoint
deriving DecidableEq

/-- Outcome of processEndpoints.  outOfRange models the Go runtime panic of
indexing Endpoints[0] on an empty slice. -/
inductive PEResult where
  | outOfRange
  | error (msg : String)
  | ok (cluster : Cluster) (addresses : List Address)
deriving DecidableEq

/-- The endpoint loop of processEndpoints: each endpoint must have the
expected base path modulo one trailing slash, addresses and locality
endpoints are accumulated in order, and the priority counter advances when
the group endpoint type starts with failover. -/
def processEPLoop (epType basePath : String) : List Endpoint → Nat → Except String (List Address × List LbEndpoint)
  | [], _ => .ok ([], [])
  | ep :: rest, priority =>
    if goTrimSuffix ep.basepath "/" ≠ basePath then
      .error ("endpoint basepath mismatched for " ++ ep.rawURL ++ ". expected : " ++
        basePath ++ " but found : " ++ ep.basepath)
    else
      let nextPriority := if goHasPrefixStr epType "failover" then priority + 1 else priority
      match processEPLoop epType basePath rest nextPriority with
      | .error e => .error e
      | .ok (addrs, lbs) =>
        .ok ({ host := ep.host, port := ep.port } :: addrs,
             { priority := priority, host := ep.host, port := ep.port } :: lbs)

/-- processEndpoints: validate base paths and build the cluster; after the
loop the source reads Endpoints[0].ServiceDiscoveryString unconditionally,
which on an empty endpoint list is an out-of-range index (the registration
into the process-wide discovery map is a side effect not modelled). -/
def processEndpoints (clusterName : String) (cd : EndpointCluster) (basePath : String) : PEResult :=
  match processEPLoop cd.endpointType basePath cd.endpoints 0 with
  | .error e => .error e
  | .ok (addrs, lbs) =>
    match cd.endpoints with
    | [] => .outOfRange
    | _ :: _ => .ok { name := clusterName, lbEndpoints := lbs } addrs

/-- CreateLuaCluster (source lines 453-457): reads Endpoints[0].Basepath of
the interceptor endpoint group before delegating to processEndpoints; an
empty group is an out-of-range index. -/
def CreateLuaCluster (endpoint : InterceptEndpoint) : PEResult :=
  match endpoint.endpointCluster.endpoints with
  | [] => .outOfRange
  | e0 :: _ => processEndpoints endpoint.clusterName endpoint.endpointCluster e0.basepath

/-! ### Path regex machinery (source lines 1336-1413, 1552-1560) -/

/-- Regex fragment substituted for a path parameter. -/
def pathParaRegex : String := "([^/]+)"

/-- Regex fragment substituted for a trailing wildcard. -/
def wildCardRegex : String := "((/(.*))*)"

/-- Regex fragment appended for an optional trailing slash. -/
def trailingSlashRegex : String := "(/{0,1})"

/-- Character-level model of regexp.MustCompile of the brace template
pattern followed by ReplaceAllString: each occurrence of an opening brace,
one or more characters other than a closing brace, and a closing brace is
replaced by repl applied to the running parameter index; anything else is
copied.  When the remainder holds no closing brace no further template can
match and the remainder is returned unchanged. -/
def replaceParamsF (repl : Nat → List Char) : Nat → List Char → Nat → List Char
  | _, [], _ => []
  | 0, s, _ => s
  | fuel + 1, c :: rest, i =>
    if c = '{' then
      match rest.dropWhile (fun x => x != '}') with
      | [] => c :: rest
      | _ :: rest2 =>
        if rest.takeWhile (fun x => x != '}') = [] then c :: replaceParamsF repl fuel rest i
        else repl i ++ replaceParamsF repl fuel rest2 (i + 1)
    else c :: replaceParamsF repl fuel rest i

/-- The template scanner at its natural fuel. -/
def replaceParams (repl : Nat → List Char) (s : List Char) (i : Nat) : List Char :=
  replaceParamsF repl s.length s i

/-- generatePathRegexSegment: path parameters become capture groups, a
trailing /* becomes the wildcard fragment, otherwise one trailing slash is
dropped and the optional-slash fragment appended. -/
def generatePathRegexSegment (resourcePath : String) : String :=
  let resourceRegex : List Char := replaceParams (fun _ => pathParaRegex.data) resourcePath.data 0
  if "/*".data.isSuffixOf resourceRegex then
    ⟨trimSuffixL resourceRegex "/*".data ++ wildCardRegex.data⟩
  else
    ⟨trimSuffixL resourceRegex "/".data ++ trailingSlashRegex.data⟩

/-- Digit character for a decimal digit. -/
def digitChar (d : Nat) : Char :=
  match d with
  | 0 => '0' | 1 => '1' | 2 => '2' | 3 => '3' | 4 => '4'
  | 5 => '5' | 6 => '6' | 7 => '7' | 8 => '8' | _ => '9'

/-- Decimal digits of a natural number. -/
def natDecimalF : Nat → Nat → List Char
  | 0, n => [digitChar n]
  | fuel + 1, n =>
    if n < 10 then [digitChar n] else natDecimalF fuel (n / 10) ++ [digitChar (n % 10)]

/-- Decimal digits at the natural fuel (the value itself bounds the digit
count). -/
def natDecimal (n : Nat) : List Char :=
  natDecimalF n n

/-- The replacement token fmt.Sprintf of a backslash and the decimal index. -/
def numToken (i : Nat) : List Char :=
  '\\' :: natDecimal i

/-- The renumbering loop of generateSubstitutionString.  The source replaces,
while a capture-group fragment remains, its first occurrence by the next
backslash-index token.  Because the replacement tokens contain no opening
parenthesis, repeatedly replacing the first occurrence never creates or
uncovers an occurrence left of the scan point, so the loop is equivalent to
this single left-to-right scan. -/
def renumberAuxF : Nat → Nat → List Char → List Char
  | _, _, [] => []
  | 0, _, s => s
  | fuel + 1, i, c :: rest =>
    if pathParaRegex.data.isPrefixOf (c :: rest) then
      numToken i ++ renumberAuxF fuel (i + 1) (rest.drop (pathParaRegex.data.length - 1))
    else c :: renumberAuxF fuel i rest

/-- The renumbering scan at its natural fuel. -/
def renumberAux (i : Nat) (s : List Char) : List Char :=
  renumberAuxF s.length i s

/-- generateSubstitutionString: capture groups are renumbered into
backslash indices starting at one, then the wildcard fragment is dropped,
or the optional-slash fragment is dropped (restoring a trailing slash of
the resource path), and the endpoint base path is prepended. -/
def generateSubstitutionString (resourcePath endpointBasepath : String) : String :=
  let r1 : List Char := renumberAux 1 (generatePathRegexSegment resourcePath).data
  let r2 : List Char :=
    if wildCardRegex.data.isSuffixOf r1 then trimSuffixL r1 wildCardRegex.data
    else if "/".data.isSuffixOf resourcePath.data then
      trimSuffixL r1 trailingSlashRegex.data ++ "/".data
    else trimSuffixL r1 trailingSlashRegex.data
  endpointBasepath ++ ⟨r2⟩

/-- generateRegex: anchor the segment regex and allow a query suffix. -/
def generateRegex (fullpath : String) : String :=
  "^" ++ generatePathRegexSegment fullpath ++ "(\\?([^/]+))?" ++ "$"

/-- strings.Split(s, "?")[0]: the part before the first question mark. -/
def dropQuery (s : String) : String :=
  ⟨s.data.takeWhile (fun c => c != '?')⟩

/-- generateRoutePath: strip a query part and build the anchored regex of
base path plus resource path. -/
def generateRoutePath (basePath resourcePath : String) : String :=
  generateRegex (basePath ++ dropQuery resourcePath)

/-- getFilteredBasePath: prefer a non-blank xWso2Basepath, ensure a leading
slash, drop one trailing slash. -/
def getFilteredBasePath (xWso2Basepath basePath : String) : String :=
  let modifiedBasePath := if goTrimSpace xWso2Basepath ≠ "" then xWso2Basepath else basePath
  let modifiedBasePath :=
    if ¬ goHasPrefixStr modifiedBasePath "/" then "/" ++ modifiedBasePath else modifiedBasePath
  goTrimSuffix modifiedBasePath "/"

/-- getDefaultVersionBasepath: the source takes the last index of the
slash-version fragment and passes that index as the replacement count of
strings.Replace, then offers both alternatives in a non-capturing group. -/
def getDefaultVersionBasepath (basePath version : String) : String :=
  let indexOfVersionString := goLastIndex basePath ("/" ++ version)
  let context := goReplace basePath ("/" ++ version) "" indexOfVersionString
  "(?:" ++ basePath ++ "|" ++ context ++ ")"

/-- The rewrite the claim text describes for the default version: remove the
slash-version fragment only at its last occurrence. -/
def removeLastOccurrence (s sub : String) : String :=
  let idx := goLastIndex s sub
  if idx < 0 then s
  else ⟨s.data.take idx.toNat ++ s.data.drop (idx.toNat + sub.data.length)⟩

/-! ### Route Compiler (createRoute, source lines 785-1101) -/

/-- A header-match specifier: safe-regex or exact string. -/
inductive StringMatchSpec where
  | regex (pattern : String)
  | exact (value : String)
deriving DecidableEq

/-- A route header matcher. -/
structure HeaderMatcher where
  name : String
  spec : StringMatchSpec
deriving DecidableEq

/-- The regex rewrite of a route action. -/
structure RegexRewrite where
  pattern : String
  substitution : String
deriving DecidableEq

/-- The modelled route.  name, match regex, header matchers, rewrite,
decorator and the path context extension mirror the corresponding proto
fields; isSandbox records the isSandbox creation parameter, which in the
emitted proto manifests as the cluster-selector header matcher whenever
method matching is active.  CORS, retry, timeout and filter payloads carry
no claim-relevant structure and are elided. -/
structure Route where
  name : String
  matchPathRegex : String
  matchHeaders : List HeaderMatcher
  regexRewrite : Option RegexRewrite
  decoratorOperation : Option String
  resourcePathContext : String
  isSandbox : Bool
deriving DecidableEq

/-- The routeCreateParams structure (defined in a sibling source file and
populated by genRouteCreateParams below); fields no claim touches are
elided. -/
structure RouteCreateParams where
  title : String := ""
  version : String := ""
  vHost : String := ""
  apiType : String := ""
  xWSO2BasePath : String := ""
  prodClusterName : String := ""
  sandClusterName : String := ""
  endpointBasePath : String := ""
  resourcePathParam : String := ""
  resourceMethods : List String := []
  requestInterceptor : List (String × InterceptEndpoint) := []
  responseInterceptor : List (String × InterceptEndpoint) := []
  rewritePath : String := ""
  rewriteMethod : Bool := false
  isDefaultVersion : Bool := false
  isSandbox : Bool := false
  organizationID : String := ""
deriving DecidableEq

/-- The regex rewrite computed in createRoute (source lines 999-1016): a
declared rewritePath rewrites the whole route path to the endpoint base
path (plus the rewrite path unless it is the root); otherwise the pattern
is the anchored base path plus the resource segment regex with a trailing
wildcard fragment dropped, and the substitution comes from
generateSubstitutionString. -/
def computeRegexRewrite (params : RouteCreateParams) (basePath routePath : String) : RegexRewrite :=
  if params.rewritePath ≠ "" then
    { pattern := routePath
      substitution :=
        if params.rewritePath ≠ "/" then params.endpointBasePath ++ params.rewritePath
        else params.endpointBasePath }
  else
    let resourcePath := dropQuery params.resourcePathParam
    let resourceRegex0 := generatePathRegexSegment resourcePath
    let resourceRegex :=
      if goHasSuffix resourcePath "/*" then goTrimSuffix resourceRegex0 wildCardRegex
      else resourceRegex0
    { pattern := "^" ++ basePath ++ resourceRegex
      substitution := generateSubstitutionString resourcePath params.endpointBasePath }

/-- createRoute.  The method header matcher is attached unless rewriteMethod
is set, with OPTIONS appended when the joined method regex does not contain
it; the sandbox cluster-header matcher is appended inside that same branch;
the regex rewrite is attached only when an xWso2Basepath is present (the
source computes it unconditionally but only installs it on that branch). -/
def createRoute (params : RouteCreateParams) : Route :=
  let basePath0 := getFilteredBasePath params.xWSO2BasePath params.endpointBasePath
  let basePath :=
    if params.isDefaultVersion then getDefaultVersionBasepath basePath0 params.version
    else basePath0
  let routePath := generateRoutePath basePath params.resourcePathParam
  let matchHeaders : List HeaderMatcher :=
    if ¬ params.rewriteMethod then
      let methodRegex0 := goJoin "|" params.resourceMethods
      let methodRegex :=
        if ¬ goContains methodRegex0 "OPTIONS" then methodRegex0 ++ "|OPTIONS" else methodRegex0
      let withMethod := [{ name := httpMethodHeader
                           spec := StringMatchSpec.regex ("^(" ++ methodRegex ++ ")$") }]
      if params.isSandbox then
        withMethod ++ [{ name := clusterHeaderName
                         spec := StringMatchSpec.exact params.sandClusterName }]
      else withMethod
    else []
  let decorator :=
    if goTrimSpace routePath ≠ "" then some (params.vHost ++ ":" ++ routePath) else none
  let rewriteCfg : Option RegexRewrite :=
    if params.xWSO2BasePath ≠ "" then some (computeRegexRewrite params basePath routePath)
    else none
  { name := params.xWSO2BasePath
    matchPathRegex := routePath
    matchHeaders := matchHeaders
    regexRewrite := rewriteCfg
    decoratorOperation := decorator
    resourcePathContext := params.resourcePathParam
    isSandbox := params.isSandbox }

/-- getDefaultResourceMethods: websocket APIs default to a single GET. -/
def getDefaultResourceMethods (apiType : String) : List String :=
  if apiType = WS then ["GET"] else []

/-- genRouteCreateParams (source lines 1476-1515). -/
def genRouteCreateParams (swagger : MgwSwagger) (resource : Option Resource)
    (vHost endpointBasePath prodClusterName sandClusterName : String)
    (requestInterceptor responseInterceptor : List (String × InterceptEndpoint))
    (organizationID : String) (isSandbox : Bool) : RouteCreateParams :=
  let base : RouteCreateParams :=
    { organizationID := organizationID
      title := swagger.title
      apiType := swagger.apiType
      version := swagger.version
      vHost := vHost
      xWSO2BasePath := swagger.xWso2Basepath
      prodClusterName := prodClusterName
      sandClusterName := sandClusterName
      endpointBasePath := endpointBasePath
      resourcePathParam := ""
      resourceMethods := getDefaultResourceMethods swagger.apiType
      requestInterceptor := requestInterceptor
      responseInterceptor := responseInterceptor
      rewritePath := ""
      rewriteMethod := false
      isDefaultVersion := swagger.isDefaultVersion
      isSandbox := isSandbox }
  match resource with
  | none => base
  | some r =>
    { base with
      resourceMethods := r.methods
      resourcePathParam := r.path
      rewritePath := r.rewritePath
      rewriteMethod := r.rewriteMethod }

/-! ### Interceptor Compiler per-method records (getInlineLuaScript,
source lines 1103-1150) -/

/-- Int64 wrap-around of the mathematical integer value. -/
def wrap64 (x : Int) : Int :=
  (x + 2 ^ 63) % 2 ^ 64 - 2 ^ 63

/-- The raw value of the Go constant time.Second. -/
def nanosPerSecond : Int := 1000000000

/-- Go expression op.RequestTimeout * time.Second on int64 values. -/
def durationMulSecond (d : Int) : Int :=
  wrap64 (d * nanosPerSecond)

/-- Go method Duration.Milliseconds: truncated division by one million. -/
def durationMilliseconds (v : Int) : Int :=
  Int.tdiv v 1000000

/-- The Timeout string of an interceptor record: strconv.FormatInt of
(op.RequestTimeout * time.Second).Milliseconds() in base ten. -/
def interceptTimeoutString (requestTimeout : Int) : String :=
  toString (durationMilliseconds (durationMulSecond requestTimeout))

/-- The per-method external-call record of the inline Lua script (the
interceptor.HTTPCallConfig template value; payload-inclusion flags are
elided). -/
structure HTTPCallConfig where
  clusterName : String
  timeout : String
deriving DecidableEq

/-- One flow map of getInlineLuaScript: each method of the interceptor map
becomes a record with the callout cluster name and the timeout string. -/
def luaFlowConfigs (interceptorMap : List (String × InterceptEndpoint)) : List (String × HTTPCallConfig) :=
  interceptorMap.map (fun p =>
    (p.1, { clusterName := p.2.clusterName
            timeout := interceptTimeoutString p.2.requestTimeout }))

/-- getInlineLuaScript reduced to its observable data: the request and
response flow maps handed to the Lua template (template rendering itself
lives in the interceptor package outside this file); a flow is populated
only when its interceptor map is non-empty. -/
def getInlineLuaScript (requestInterceptor responseInterceptor : List (String × InterceptEndpoint)) :
    List (String × HTTPCallConfig) × List (String × HTTPCallConfig) :=
  (if requestInterceptor.length > 0 then luaFlowConfigs requestInterceptor else [],
   if responseInterceptor.length > 0 then luaFlowConfigs responseInterceptor else [])

/-! ### API Translator (CreateRoutesWithClusters, source lines 79-441) -/

/-- Basepath of the first endpoint of a group; the Go code only reads it
under a non-emptiness guard. -/
def headBasepath (ec : EndpointCluster) : String :=
  match ec.endpoints with
  | [] => ""
  | e :: _ => e.basepath

/-- Basepath of the first API-level production endpoint (the source reads
GetProdEndpoints().Endpoints[0] inside a branch that the control flow only
reaches when production endpoints were present). -/
def prodHeadBasepath (m : MgwSwagger) : String :=
  match m.prodEndpoints with
  | some ec => headBasepath ec
  | none => ""

/-- API-level production phase (source lines 107-131).  Returns
apiLevelBasePathProd, apiLevelClusterNameProd and the contributed clusters
and addresses; none models a panic inside processEndpoints. -/
def apiProdPhase (m : MgwSwagger) (vHost organizationID : String) :
    Option (String × String × List Cluster × List Address) :=
  match m.prodEndpoints with
  | some apiLevelEndpointProd =>
    if apiLevelEndpointProd.endpoints.length > 0 then
      let apiLevelBasePathProd := goTrimSuffix (headBasepath apiLevelEndpointProd) "/"
      let apiLevelClusterNameProd :=
        getClusterName apiLevelEndpointProd.endpointPfx organizationID vHost m.title m.version ""
      if ¬ goContains apiLevelEndpointProd.endpointPfx xWso2EPClustersConfigNamePfx then
        match processEndpoints apiLevelClusterNameProd apiLevelEndpointProd apiLevelBasePathProd with
        | .outOfRange => none
        | .error _ => some (apiLevelBasePathProd, "", [], [])
        | .ok c a => some (apiLevelBasePathProd, apiLevelClusterNameProd, [c], a)
      else some (apiLevelBasePathProd, apiLevelClusterNameProd, [], [])
    else some ("", "", [], [])
  | none => some ("", "", [], [])

/-- API-level sandbox phase (source lines 132-167).  Returns the possibly
updated apiLevelBasePathProd, the apiLevelBasePathSand, the
apiLevelClusterNameSand and the contributions. -/
def apiSandPhase (m : MgwSwagger) (vHost organizationID apiLevelBasePathProd apiLevelClusterNameProd : String) :
    Option (String × String × String × List Cluster × List Address) :=
  match m.sandEndpoints with
  | some apiLevelEndpointSand =>
    if apiLevelEndpointSand.endpoints.length > 0 then
      let bps :=
        if apiLevelBasePathProd = "" ∧ apiLevelClusterNameProd = "" then
          let bp := goTrimSuffix (headBasepath apiLevelEndpointSand) "/"
          (bp, "", bp)
        else if goTrimSuffix (prodHeadBasepath m) "/" ≠
            goTrimSuffix (headBasepath apiLevelEndpointSand) "/" then
          let bp := goTrimSuffix (headBasepath apiLevelEndpointSand) "/"
          (apiLevelBasePathProd, bp, bp)
        else (apiLevelBasePathProd, "", apiLevelBasePathProd)
      let apiLevelClusterNameSand :=
        getClusterName apiLevelEndpointSand.endpointPfx organizationID vHost m.title m.version ""
      if ¬ goContains apiLevelEndpointSand.endpointPfx xWso2EPClustersConfigNamePfx then
        match processEndpoints apiLevelClusterNameSand apiLevelEndpointSand bps.2.2 with
        | .outOfRange => none
        | .error _ => some (bps.1, bps.2.1, "", [], [])
        | .ok c a => some (bps.1, bps.2.1, apiLevelClusterNameSand, [c], a)
      else some (bps.1, bps.2.1, apiLevelClusterNameSand, [], [])
    else some (apiLevelBasePathProd, "", "", [], [])
  | none => some (apiLevelBasePathProd, "", "", [], [])

/-- Named-endpoints phase (source lines 168-187), iterated over the
x-wso2-endpoints groups: a group seen while no production base path or
cluster name exists donates its trimmed first base path; every successful
compile sets strictBasePath.  Go iterates a map in unspecified order; the
model iterates the association list in order, which fixes cluster order but
no claim depends on it. -/
def xwso2Loop (vHost organizationID title version apiLevelClusterNameProd : String) :
    List (String × EndpointCluster) → String → Bool →
    Option (String × Bool × List Cluster × List Address)
  | [], bpProd, strict => some (bpProd, strict, [], [])
  | (_, endpointCluster) :: rest, bpProd, strict =>
    let bpProd2 :=
      if bpProd = "" ∧ apiLevelClusterNameProd = "" then
        goTrimSuffix (headBasepath endpointCluster) "/"
      else bpProd
    let epClusterName :=
      getClusterName endpointCluster.endpointPfx organizationID vHost title version ""
    match processEndpoints epClusterName endpointCluster bpProd2 with
    | .outOfRange => none
    | .error _ =>
      xwso2Loop vHost organizationID title version apiLevelClusterNameProd rest bpProd2 strict
    | .ok c a =>
      match xwso2Loop vHost organizationID title version apiLevelClusterNameProd rest bpProd2 true with
      | none => none
      | some (bp3, st3, cs, as3) => some (bp3, st3, c :: cs, a ++ as3)

/-- API-level interceptor cluster creation (source lines 189-219): when the
interceptor is enabled its cluster name is minted and the Lua cluster is
built; a failure resets the interceptor to the zero value. -/
def apiInterceptorSetup (i : InterceptEndpoint) (assignedName : String) :
    Option (InterceptEndpoint × List Cluster × List Address) :=
  if i.enable then
    let i2 := { i with clusterName := assignedName }
    match CreateLuaCluster i2 with
    | .outOfRange => none
    | .error _ => some ({}, [], [])
    | .ok c a => some (i2, [c], a)
  else some (i, [], [])

/-- Resource-level interceptor cluster creation (source lines 351-365 and
390-404): on failure the surrounding scope keeps its current interceptor. -/
def resourceInterceptorSetup (iv current : InterceptEndpoint) (assignedName : String) :
    Option (InterceptEndpoint × List Cluster × List Address) :=
  if iv.enable then
    let iv2 := { iv with clusterName := assignedName }
    match CreateLuaCluster iv2 with
    | .outOfRange => none
    | .error _ => some (current, [], [])
    | .ok c a => some (iv2, [c], a)
  else some (current, [], [])

/-- Modelled from the spec: MgwSwagger.GetOperationInterceptors lives in the
model package outside this file; per spec section 4.5 step d it yields, for
each method of the resource, the declared operation-level interceptor when
one exists and otherwise the already resolved resource-level (or API-level)
interceptor passed in as the fallback. -/
def GetOperationInterceptors (fallback : InterceptEndpoint)
    (methods : List String) (opLevel : List (String × InterceptEndpoint)) :
    List (String × InterceptEndpoint) :=
  methods.map (fun mth =>
    match opLevel.find? (fun p => p.1 == mth) with
    | some p => (mth, p.2)
    | none => (mth, fallback))

/-- Operation-level interceptor cluster loop (source lines 369-387 and
409-427): an enabled operation-level entry is renamed with a minted cluster
name (its previous cluster-name field acting as the operation id) and gets
a Lua cluster; on failure the entry is replaced by the fallback. -/
def opInterceptorLoop (organizationID vHost title version namePfx : String)
    (fallback : InterceptEndpoint) :
    List (String × InterceptEndpoint) →
    Option (List (String × InterceptEndpoint) × List Cluster × List Address)
  | [] => some ([], [], [])
  | (mth, opI) :: rest =>
    if opI.enable ∧ opI.level = OperationLevelInterceptor then
      let opID := opI.clusterName
      let opI2 := { opI with
        clusterName := getClusterName namePfx organizationID vHost title version opID }
      match CreateLuaCluster opI2 with
      | .outOfRange => none
      | .error _ =>
        match opInterceptorLoop organizationID vHost title version namePfx fallback rest with
        | none => none
        | some (l, cs, as2) => some ((mth, fallback) :: l, cs, as2)
      | .ok c a =>
        match opInterceptorLoop organizationID vHost title version namePfx fallback rest with
        | none => none
        | some (l, cs, as2) => some ((mth, opI2) :: l, c :: cs, a ++ as2)
    else
      match opInterceptorLoop organizationID vHost title version namePfx fallback rest with
      | none => none
      | some (l, cs, as2) => some ((mth, opI) :: l, cs, as2)

/-- Resource-level production endpoint phase (source lines 253-281).
Returns the new resourceBasePath, the new clusterNameProd and the
contributions; clusterNameProd0 is the incoming value, equal to
apiLevelClusterNameProd, to which the source reverts on failure. -/
def resourceProdPhase (m : MgwSwagger) (vHost organizationID : String) (r : Resource)
    (resourceBasePath0 clusterNameProd0 : String) :
    Option (String × String × List Cluster × List Address) :=
  match r.prodEndpoints with
  | some endpointProd =>
    if endpointProd.endpoints.length > 0 then
      let prevResourceBasePath := resourceBasePath0
      let resourceBasePath :=
        if resourceBasePath0 = "" then goTrimSuffix (headBasepath endpointProd) "/"
        else resourceBasePath0
      let clusterNameProd :=
        getClusterName endpointProd.endpointPfx organizationID vHost m.title m.version ""
      if ¬ goContains endpointProd.endpointPfx xWso2EPClustersConfigNamePfx then
        let clusterNameProd2 :=
          getClusterName endpointProd.endpointPfx organizationID vHost m.title m.version r.id
        match processEndpoints clusterNameProd2 endpointProd resourceBasePath with
        | .outOfRange => none
        | .error _ => some (prevResourceBasePath, clusterNameProd0, [], [])
        | .ok c a => some (resourceBasePath, clusterNameProd2, [c], a)
      else some (resourceBasePath, clusterNameProd, [], [])
    else some (resourceBasePath0, clusterNameProd0, [], [])
  | none => some (resourceBasePath0, clusterNameProd0, [], [])

/-- Resource-level sandbox endpoint phase (source lines 283-316).  Returns
the new resourceBasePathSand, the new clusterNameSand, the
isResourceBasePathSandAvailable flag and the contributions.  The reversion
value on failure is the API-level sandbox base path when set, else the
API-level production base path. -/
def resourceSandPhase (m : MgwSwagger) (vHost organizationID : String) (r : Resource)
    (apiLevelBasePathProd apiLevelBasePathSand resourceBasePathSand0 clusterNameSand0 : String) :
    Option (String × String × Bool × List Cluster × List Address) :=
  match r.sandEndpoints with
  | some endpointSand =>
    if endpointSand.endpoints.length > 0 then
      let prevResourceBasePath :=
        if apiLevelBasePathSand ≠ "" then apiLevelBasePathSand else apiLevelBasePathProd
      let resourceBasePathSand :=
        if resourceBasePathSand0 = "" then goTrimSuffix (headBasepath endpointSand) "/"
        else resourceBasePathSand0
      let clusterNameSand :=
        getClusterName endpointSand.endpointPfx organizationID vHost m.title m.version ""
      if ¬ goContains endpointSand.endpointPfx xWso2EPClustersConfigNamePfx then
        let clusterNameSand2 :=
          getClusterName endpointSand.endpointPfx organizationID vHost m.title m.version r.id
        match processEndpoints clusterNameSand2 endpointSand resourceBasePathSand with
        | .outOfRange => none
        | .error _ => some (prevResourceBasePath, clusterNameSand0, false, [], [])
        | .ok c a => some (resourceBasePathSand, clusterNameSand2, true, [c], a)
      else some (resourceBasePathSand, clusterNameSand, false, [], [])
    else some (resourceBasePathSand0, clusterNameSand0, false, [], [])
  | none => some (resourceBasePathSand0, clusterNameSand0, false, [], [])

/-- Route emission tail of one resource iteration (source lines 429-438):
the sandbox route, when due, is appended before the production route. -/
def emitRoutes (sandboxDue : Bool) (routeS routeP : Route) : List Route :=
  (if sandboxDue then [routeS] else []) ++ [routeP]

/-- One iteration of the resource loop (source lines 234-439).  The single
loop-carried mutable of the source beyond the output accumulators is
apiLevelBasePathSand (updated at lines 320-323); the updated value is
returned last. -/
def stepResource (m : MgwSwagger) (vHost organizationID : String)
    (apiLevelBasePathProd apiLevelClusterNameProd apiLevelClusterNameSand : String)
    (strictBasePath : Bool) (apiReqI apiRespI : InterceptEndpoint)
    (apiLevelBasePathSand : String) (resource : Resource) :
    Option (List Route × List Cluster × List Address × String) :=
  let initBPs :=
    if strictBasePath ∨
        ((resource.prodEndpoints.elim true (fun ec => ec.endpoints.length < 1)) ∧
         (resource.sandEndpoints.elim true (fun ec => ec.endpoints.length < 1))) then
      (apiLevelBasePathProd,
       if apiLevelBasePathSand ≠ "" then apiLevelBasePathSand else apiLevelBasePathProd)
    else ("", "")
  match resourceProdPhase m vHost organizationID resource initBPs.1 apiLevelClusterNameProd with
  | none => none
  | some (resourceBasePath1, clusterNameProd1, csP, asP) =>
  match resourceSandPhase m vHost organizationID resource apiLevelBasePathProd
      apiLevelBasePathSand initBPs.2 apiLevelClusterNameSand with
  | none => none
  | some (resourceBasePathSand1, clusterNameSand1, isResourceBasePathSandAvailable, csS, asS) =>
  -- lines 318-327: fill the missing side from API-level base paths
  let afterFill :=
    if resourceBasePath1 ≠ "" ∧ resourceBasePathSand1 = "" then
      let newApiSand := if apiLevelBasePathSand = "" then apiLevelBasePathProd else apiLevelBasePathSand
      (resourceBasePath1, newApiSand, newApiSand)
    else if resourceBasePath1 = "" ∧ resourceBasePathSand1 ≠ "" then
      (apiLevelBasePathProd, resourceBasePathSand1, apiLevelBasePathSand)
    else (resourceBasePath1, resourceBasePathSand1, apiLevelBasePathSand)
  let resourceBasePath2 := afterFill.1
  let apiLevelBasePathSand2 := afterFill.2.2
  -- lines 329-336: both clusters API-level forces the API-level sandbox base path
  let resourceBasePathSand2 :=
    if clusterNameProd1 = apiLevelClusterNameProd ∧ clusterNameSand1 = apiLevelClusterNameSand then
      if apiLevelBasePathSand2 ≠ "" then apiLevelBasePathSand2 else apiLevelBasePathProd
    else afterFill.2.1
  -- lines 338-349: base-path coherence checks disable mismatching clusters
  let clusterNameProd2 :=
    if clusterNameProd1 ≠ "" ∧ clusterNameProd1 = apiLevelClusterNameProd ∧
        resourceBasePath2 ≠ apiLevelBasePathProd ∧ resourceBasePath2 ≠ "" then ""
    else clusterNameProd1
  let clusterNameSand2 :=
    if clusterNameSand1 ≠ "" ∧ apiLevelBasePathSand2 ≠ "" ∧
        clusterNameSand1 = apiLevelClusterNameSand ∧ resourceBasePathSand2 ≠ apiLevelBasePathSand2 then ""
    else clusterNameSand1
  match resourceInterceptorSetup resource.reqInterceptor apiReqI
      (getClusterName requestInterceptClustersNamePfx organizationID vHost m.title m.version resource.id) with
  | none => none
  | some (resourceReqI, csRI, asRI) =>
  match opInterceptorLoop organizationID vHost m.title m.version requestInterceptClustersNamePfx
      resourceReqI (GetOperationInterceptors resourceReqI resource.methods resource.opReqInterceptors) with
  | none => none
  | some (operationalReqInterceptors, csOR, asOR) =>
  match resourceInterceptorSetup resource.respInterceptor apiRespI
      (getClusterName responseInterceptClustersNamePfx organizationID vHost m.title m.version resource.id) with
  | none => none
  | some (resourceRespI, csRE, asRE) =>
  match opInterceptorLoop organizationID vHost m.title m.version responseInterceptClustersNamePfx
      resourceRespI (GetOperationInterceptors resourceRespI resource.methods resource.opRespInterceptors) with
  | none => none
  | some (operationalRespInterceptors, csOE, asOE) =>
  -- lines 429-438: emit the sandbox route first when one is due, then prod
  let routeP := createRoute (genRouteCreateParams m (some resource) vHost resourceBasePath2
    clusterNameProd2 clusterNameSand2 operationalReqInterceptors operationalRespInterceptors
    organizationID false)
  let routeS := createRoute (genRouteCreateParams m (some resource) vHost resourceBasePathSand2
    clusterNameProd2 clusterNameSand2 operationalReqInterceptors operationalRespInterceptors
    organizationID true)
  some (emitRoutes ((apiLevelBasePathSand2 != "") || isResourceBasePathSandAvailable) routeS routeP,
        csP ++ csS ++ csRI ++ csOR ++ csRE ++ csOE,
        asP ++ asS ++ asRI ++ asOR ++ asRE ++ asOE,
        apiLevelBasePathSand2)

/-- The resource loop, threading apiLevelBasePathSand. -/
def resourceLoop (m : MgwSwagger) (vHost organizationID : String)
    (apiLevelBasePathProd apiLevelClusterNameProd apiLevelClusterNameSand : String)
    (strictBasePath : Bool) (apiReqI apiRespI : InterceptEndpoint) :
    String → List Resource → Option (List Route × List Cluster × List Address)
  | _, [] => some ([], [], [])
  | sandBP, r :: rest =>
    match stepResource m vHost organizationID apiLevelBasePathProd apiLevelClusterNameProd
        apiLevelClusterNameSand strictBasePath apiReqI apiRespI sandBP r with
    | none => none
    | some (rts, cs, as1, sandBP2) =>
      match resourceLoop m vHost organizationID apiLevelBasePathProd apiLevelClusterNameProd
          apiLevelClusterNameSand strictBasePath apiReqI apiRespI sandBP2 rest with
      | none => none
      | some (rts2, cs2, as2) => some (rts ++ rts2, cs ++ cs2, as1 ++ as2)

/-- CreateRoutesWithClusters: the orchestrator.  Certificates and timeouts
only feed cluster fields that are elided; none models a runtime panic on an
empty endpoint group. -/
def CreateRoutesWithClusters (m : MgwSwagger) (vHost organizationID : String) :
    Option (List Route × List Cluster × List Address) :=
  match apiProdPhase m vHost organizationID with
  | none => none
  | some (bpProd1, nameProd, cs1, as1) =>
  match apiSandPhase m vHost organizationID bpProd1 nameProd with
  | none => none
  | some (bpProd2, bpSand, nameSand, cs2, as2) =>
  match xwso2Loop vHost organizationID m.title m.version nameProd m.xWso2Endpoints bpProd2 false with
  | none => none
  | some (bpProd3, strict, cs3, as3) =>
  match apiInterceptorSetup m.apiReqInterceptor
      (getClusterName requestInterceptClustersNamePfx organizationID vHost m.title m.version "") with
  | none => none
  | some (apiReqI, cs4, as4) =>
  match apiInterceptorSetup m.apiRespInterceptor
      (getClusterName responseInterceptClustersNamePfx organizationID vHost m.title m.version "") with
  | none => none
  | some (apiRespI, cs5, as5) =>
  if m.apiType = WS then
    some (m.resources.map (fun resource =>
            createRoute (genRouteCreateParams m (some resource) vHost bpProd3 nameProd nameSand
              [] [] organizationID false)),
          cs1 ++ cs2 ++ cs3 ++ cs4 ++ cs5,
          as1 ++ as2 ++ as3 ++ as4 ++ as5)
  else
    match resourceLoop m vHost organizationID bpProd3 nameProd nameSand strict apiReqI apiRespI
        bpSand m.resources with
    | none => none
    | some (rts, cs6, as6) =>
      some (rts, cs1 ++ cs2 ++ cs3 ++ cs4 ++ cs5 ++ cs6, as1 ++ as2 ++ as3 ++ as4 ++ as5 ++ as6)

/-! ### Specification-side definitions used to state the claims -/

/-- The standard HTTP verbs; the data model of the spec (section 3)
restricts resource method lists to these. -/
def standardHTTPMethods : List String :=
  ["GET", "POST", "PUT", "DELETE", "PATCH", "HEAD", "OPTIONS", "TRACE", "CONNECT"]

/-- The method regex body the claim describes: the methods joined with a
pipe, with OPTIONS appended when it is absent from the method list. -/
def specMethodRegexBody (methods : List String) : String :=
  if "OPTIONS" ∈ methods then goJoin "|" methods else goJoin "|" methods ++ "|OPTIONS"

/-- A piece of a resource-path template: a literal character or a brace
parameter. -/
inductive PathPiece where
  | lit (c : Char)
  | param (name : List Char)
deriving DecidableEq

/-- Well-formedness of one template piece: literals are none of an opening
brace, an opening parenthesis or a star, and parameter names are non-empty
without a closing brace or a star. -/
def pieceOK : PathPiece → Bool
  | .lit c => c != '{' && c != '(' && c != '*'
  | .param n => !n.isEmpty && !n.contains '}' && !n.contains '*'

/-- Well-formedness of a template. -/
def piecesOK (ps : List PathPiece) : Bool :=
  ps.all pieceOK

/-- The characters of a template. -/
def renderPieces : List PathPiece → List Char
  | [] => []
  | .lit c :: ps => c :: renderPieces ps
  | .param n :: ps => '{' :: (n ++ '}' :: renderPieces ps)

/-- The characters of a template with every parameter replaced by a token
of the running parameter index. -/
def renderWith (tok : Nat → List Char) : List PathPiece → Nat → List Char
  | [], _ => []
  | .lit c :: ps, i => c :: renderWith tok ps i
  | .param _ :: ps, i => tok i ++ renderWith tok ps (i + 1)

/-- Number of parameters of a template. -/
def nParams : List PathPiece → Nat
  | [] => 0
  | .lit _ :: ps => nParams ps
  | .param _ :: ps => nParams ps + 1

/-- The substitution the claim text describes: the endpoint base path
followed by the resource path with the i-th brace parameter replaced by a
backslash index. -/
def claimParamSubstitution (resourcePath endpointBasepath : String) : String :=
  endpointBasepath ++ ⟨replaceParams (fun k => numToken (k + 1)) resourcePath.data 0⟩

/-- The claim substitution amended by stripping one trailing slash-star
wildcard before replacing parameters. -/
def claimSubstitution (resourcePath endpointBasepath : String) : String :=
  let p := if goHasSuffix resourcePath "/*" then goTrimSuffix resourcePath "/*" else resourcePath
  claimParamSubstitution p endpointBasepath


/-! ### Helper lemmas: fuel irrelevance and natural equations -/

theorem length_dropWhile_le (p : Char → Bool) (l : List Char) :
    (l.dropWhile p).length ≤ l.length := by
  have h := congrArg List.length (List.takeWhile_append_dropWhile p l)
  rw [List.length_append] at h
  omega

theorem isPrefixOf_length_le {l₁ l₂ : List Char} (h : l₁.isPrefixOf l₂ = true) :
    l₁.length ≤ l₂.length :=
  (List.isPrefixOf_iff_prefix.mp h).length_le

theorem replaceLoopF_fuel (p0 : Char) (ps repl : List Char) :
    ∀ f1 f2 s n, s.length ≤ f1 → s.length ≤ f2 →
      replaceLoopF p0 ps repl f1 s n = replaceLoopF p0 ps repl f2 s n := by
  intro f1
  induction f1 with
  | zero =>
    intro f2 s n h1 _
    have hs : s = [] := List.eq_nil_of_length_eq_zero (by omega)
    subst hs
    cases f2 <;> rfl
  | succ g1 ih =>
    intro f2 s n h1 h2
    match s with
    | [] => cases f2 <;> rfl
    | c :: rest =>
      match f2 with
      | 0 => simp at h2
      | g2 + 1 =>
        simp only [replaceLoopF]
        simp only [List.length_cons] at h1 h2
        by_cases hn : n = 0
        · simp [hn]
        · rw [if_neg hn, if_neg hn]
          by_cases hp : (p0 :: ps).isPrefixOf (c :: rest) = true
          · rw [if_pos hp, if_pos hp]
            have hd : (rest.drop ps.length).length ≤ rest.length := by
              simp [List.length_drop]
            rw [ih g2 (rest.drop ps.length) (n - 1) (by omega) (by omega)]
          · rw [if_neg hp, if_neg hp]
            rw [ih g2 rest n (by omega) (by omega)]

theorem replaceLoop_nil (p0 : Char) (ps repl : List Char) (n : Int) :
    replaceLoop p0 ps repl [] n = [] := rfl

theorem replaceLoop_cons (p0 : Char) (ps repl : List Char) (c : Char) (rest : List Char) (n : Int) :
    replaceLoop p0 ps repl (c :: rest) n =
      if n = 0 then c :: rest
      else if (p0 :: ps).isPrefixOf (c :: rest) then
        repl ++ replaceLoop p0 ps repl (rest.drop ps.length) (n - 1)
      else c :: replaceLoop p0 ps repl rest n := by
  show replaceLoopF p0 ps repl (rest.length + 1) (c :: rest) n = _
  simp only [replaceLoopF]
  rw [replaceLoopF_fuel p0 ps repl rest.length (rest.drop ps.length).length
    (rest.drop ps.length) (n - 1) (by simp [List.length_drop]) le_rfl]
  rfl

theorem replaceParamsF_fuel (repl : Nat → List Char) :
    ∀ f1 f2 s i, s.length ≤ f1 → s.length ≤ f2 →
      replaceParamsF repl f1 s i = replaceParamsF repl f2 s i := by
  intro f1
  induction f1 with
  | zero =>
    intro f2 s i h1 _
    have hs : s = [] := List.eq_nil_of_length_eq_zero (by omega)
    subst hs
    cases f2 <;> rfl
  | succ g1 ih =>
    intro f2 s i h1 h2
    match s with
    | [] => cases f2 <;> rfl
    | c :: rest =>
      match f2 with
      | 0 => simp at h2
      | g2 + 1 =>
        simp only [replaceParamsF]
        simp only [List.length_cons] at h1 h2
        by_cases hc : c = '{'
        · rw [if_pos hc, if_pos hc]
          rcases hd : rest.dropWhile (fun x => x != '}') with _ | ⟨x, rest2⟩
          · rfl
          · dsimp only
            have hlen : rest2.length + 1 ≤ rest.length := by
              have hw := length_dropWhile_le (fun x => x != '}') rest
              rw [hd] at hw
              simpa using hw
            by_cases he : rest.takeWhile (fun x => x != '}') = []
            · rw [if_pos he, if_pos he, ih g2 rest i (by omega) (by omega)]
            · rw [if_neg he, if_neg he, ih g2 rest2 (i + 1) (by omega) (by omega)]
        · rw [if_neg hc, if_neg hc, ih g2 rest i (by omega) (by omega)]

theorem replaceParams_nil (repl : Nat → List Char) (i : Nat) :
    replaceParams repl [] i = [] := rfl

theorem replaceParams_cons (repl : Nat → List Char) (c : Char) (rest : List Char) (i : Nat) :
    replaceParams repl (c :: rest) i =
      if c = '{' then
        match rest.dropWhile (fun x => x != '}') with
        | [] => c :: rest
        | _ :: rest2 =>
          if rest.takeWhile (fun x => x != '}') = [] then c :: replaceParams repl rest i
          else repl i ++ replaceParams repl rest2 (i + 1)
      else c :: replaceParams repl rest i := by
  show replaceParamsF repl (rest.length + 1) (c :: rest) i = _
  simp only [replaceParamsF]
  by_cases hc : c = '{'
  · rw [if_pos hc, if_pos hc]
    rcases hd : rest.dropWhile (fun x => x != '}') with _ | ⟨x, rest2⟩
    · rfl
    · dsimp only
      have hlen : rest2.length + 1 ≤ rest.length := by
        have hw := length_dropWhile_le (fun x => x != '}') rest
        rw [hd] at hw
        simpa using hw
      by_cases he : rest.takeWhile (fun x => x != '}') = []
      · rw [if_pos he, if_pos he]
        rfl
      · rw [if_neg he, if_neg he,
          replaceParamsF_fuel repl rest.length rest2.length rest2 (i + 1) (by omega) le_rfl]
        rfl
  · rw [if_neg hc, if_neg hc]
    rfl

theorem renumberAuxF_fuel :
    ∀ f1 f2 i s, s.length ≤ f1 → s.length ≤ f2 →
      renumberAuxF f1 i s = renumberAuxF f2 i s := by
  intro f1
  induction f1 with
  | zero =>
    intro f2 i s h1 _
    have hs : s = [] := List.eq_nil_of_length_eq_zero (by omega)
    subst hs
    cases f2 <;> rfl
  | succ g1 ih =>
    intro f2 i s h1 h2
    match s with
    | [] => cases f2 <;> rfl
    | c :: rest =>
      match f2 with
      | 0 => simp at h2
      | g2 + 1 =>
        simp only [renumberAuxF]
        simp only [List.length_cons] at h1 h2
        by_cases hp : pathParaRegex.data.isPrefixOf (c :: rest) = true
        · rw [if_pos hp, if_pos hp]
          have hd : (rest.drop (pathParaRegex.data.length - 1)).length ≤ rest.length := by
            simp [List.length_drop]
          rw [ih g2 (i + 1) (rest.drop (pathParaRegex.data.length - 1)) (by omega) (by omega)]
        · rw [if_neg hp, if_neg hp, ih g2 i rest (by omega) (by omega)]

theorem renumberAux_nil (i : Nat) : renumberAux i [] = [] := rfl

theorem renumberAux_cons (i : Nat) (c : Char) (rest : List Char) :
    renumberAux i (c :: rest) =
      if pathParaRegex.data.isPrefixOf (c :: rest) then
        numToken i ++ renumberAux (i + 1) (rest.drop (pathParaRegex.data.length - 1))
      else c :: renumberAux i rest := by
  show renumberAuxF (rest.length + 1) i (c :: rest) = _
  simp only [renumberAuxF]
  rw [renumberAuxF_fuel rest.length (rest.drop (pathParaRegex.data.length - 1)).length
    (i + 1) (rest.drop (pathParaRegex.data.length - 1)) (by simp [List.length_drop]) le_rfl]
  rfl

/-! ### C3: getClusterName equals the spec formula -/

/-- C3: for all inputs, getClusterName returns the trimmed underscore
concatenation of organization, endpoint prefix, vHost, space-stripped title
and version, with an underscore, the space-stripped resource id and a
trailing zero appended exactly when the resource id is non-empty; this is
the formula clusterNameSpec transcribes from the spec. -/
theorem getClusterName_matches_spec (epPfx org vHost title version rid : String) :
    getClusterName epPfx org vHost title version rid =
      clusterNameSpec epPfx org vHost title version rid := by
  by_cases h : rid = "" <;> simp [getClusterName, clusterNameSpec, h]

/-! ### C10: empty endpoint groups hit an out-of-range index -/

/-- C10: the non-emptiness of the endpoint list is an unchecked
precondition: on an empty endpoint group, processEndpoints runs its
validation loop without error and then indexes Endpoints[0], and
CreateLuaCluster indexes Endpoints[0] before even calling processEndpoints,
so both end in the out-of-range panic rather than in a returned error. -/
theorem processEndpoints_empty_out_of_range (clusterName basePath : String)
    (cd : EndpointCluster) (i : InterceptEndpoint)
    (hcd : cd.endpoints = []) (hi : i.endpointCluster.endpoints = []) :
    processEndpoints clusterName cd basePath = PEResult.outOfRange ∧
    CreateLuaCluster i = PEResult.outOfRange ∧
    (∀ msg, processEndpoints clusterName cd basePath ≠ PEResult.error msg) := by
  refine ⟨?_, ?_, ?_⟩
  · simp [processEndpoints, hcd, processEPLoop]
  · simp [CreateLuaCluster, hi]
  · intro msg
    simp [processEndpoints, hcd, processEPLoop]

theorem processEndpoints_empty_out_of_range_witness :
    processEndpoints "c" { endpoints := [] } "/x" = PEResult.outOfRange ∧
    CreateLuaCluster { endpointCluster := { endpoints := [] } } = PEResult.outOfRange ∧
    (∀ msg, processEndpoints "c" { endpoints := [] } "/x" ≠ PEResult.error msg) :=
  processEndpoints_empty_out_of_range "c" "/x" { endpoints := [] }
    { endpointCluster := { endpoints := [] } } rfl rfl

/-! ### C9: the interceptor timeout arithmetic overflows int64 -/

/-- C9 counterexample: for the genuine 30-second duration (raw value
30000000000 nanoseconds) the emitted Timeout string is the 64-bit wrapped
quotient, not one thousand times the raw value as the claim states. -/
theorem interceptor_timeout_overflow :
    interceptTimeoutString 30000000000 = "-6893488147419" ∧
    toString ((1000 : Int) * 30000000000) = "30000000000000" ∧
    interceptTimeoutString 30000000000 ≠ toString ((1000 : Int) * 30000000000) := by
  refine ⟨by decide, by decide, by decide⟩

/-- C9 amended: for every method entry of an interceptor map whose
RequestTimeout d keeps d multiplied by one billion inside int64, the
per-method Lua record carries the decimal representation of one thousand
times d as its Timeout string; outside that range the multiplication wraps
at 2^64 first (see the counterexample). -/
theorem interceptor_timeout_in_range (mp : List (String × InterceptEndpoint))
    (mth : String) (op : InterceptEndpoint)
    (hmem : (mth, op) ∈ mp)
    (hlo : -(2 ^ 63) ≤ op.requestTimeout * nanosPerSecond)
    (hhi : op.requestTimeout * nanosPerSecond < 2 ^ 63) :
    interceptTimeoutString op.requestTimeout = toString (1000 * op.requestTimeout) ∧
    (mth, { clusterName := op.clusterName
            timeout := toString (1000 * op.requestTimeout) : HTTPCallConfig }) ∈
      luaFlowConfigs mp := by
  have hwrap : durationMulSecond op.requestTimeout = op.requestTimeout * nanosPerSecond := by
    unfold durationMulSecond wrap64
    have h1 : (0 : Int) ≤ op.requestTimeout * nanosPerSecond + 2 ^ 63 := by omega
    have h2 : op.requestTimeout * nanosPerSecond + 2 ^ 63 < 2 ^ 64 := by omega
    rw [Int.emod_eq_of_lt h1 h2]
    omega
  have hms : durationMilliseconds (op.requestTimeout * nanosPerSecond) =
      1000 * op.requestTimeout := by
    unfold durationMilliseconds
    have he : op.requestTimeout * nanosPerSecond = 1000 * op.requestTimeout * 1000000 := by
      unfold nanosPerSecond
      ring
    rw [he, Int.mul_tdiv_cancel _ (by norm_num)]
  have hts : interceptTimeoutString op.requestTimeout = toString (1000 * op.requestTimeout) := by
    unfold interceptTimeoutString
    rw [hwrap, hms]
  refine ⟨hts, ?_⟩
  unfold luaFlowConfigs
  rw [← hts]
  exact List.mem_map.mpr ⟨(mth, op), hmem, rfl⟩

theorem interceptor_timeout_in_range_witness :
    interceptTimeoutString 30 = toString ((1000 : Int) * 30) ∧
    ("GET", { clusterName := "c", timeout := toString ((1000 : Int) * 30) : HTTPCallConfig }) ∈
      luaFlowConfigs [("GET", { clusterName := "c", requestTimeout := 30 })] :=
  interceptor_timeout_in_range [("GET", { clusterName := "c", requestTimeout := 30 })]
    "GET" { clusterName := "c", requestTimeout := 30 } (by decide) (by decide) (by decide)

/-! ### C8: cluster-name injectivity -/

theorem strAppend_tail_inj (b s1 s2 : String) :
    b ++ "_" ++ s1 ++ "0" = b ++ "_" ++ s2 ++ "0" ↔ s1 = s2 := by
  constructor
  · intro h
    have hd := congrArg String.data h
    simp only [String.data_append] at hd
    exact String.ext (List.append_cancel_left (List.append_cancel_right hd))
  · rintro rfl
    rfl

theorem strAppend_tail_ne (b s : String) : b ≠ b ++ "_" ++ s ++ "0" := by
  intro h
  have hl := congrArg String.length h
  simp only [String.length_append] at hl
  have h1 : ("_" : String).length = 1 := rfl
  have h0 : ("0" : String).length = 1 := rfl
  omega

/-- C8 counterexample: the resource ids "a b" and "ab" differ but are
collapsed by the space stripping, so two distinct argument tuples yield the
same cluster name, refuting injectivity in the raw resource id. -/
theorem getClusterName_resourceID_collision :
    getClusterName "p" "org" "vh" "t" "v1" "a b" = getClusterName "p" "org" "vh" "t" "v1" "ab" ∧
    ("a b" : String) ≠ "ab" := by
  refine ⟨by decide, by decide⟩

/-- C8 amended: getClusterName is a pure function (a Lean function by
construction), and with organization, endpoint prefix, vHost, title and
version fixed it maps two resource ids to the same cluster name exactly
when their space-stripped forms agree and the two ids are both empty or
both non-empty; in particular resource ids with distinct space-stripped
forms always get distinct cluster names.  (Injectivity in the remaining
tuple components fails separately: underscores inside the organization or
prefix shift the boundary, e.g. org "a" with prefix "b_c" against org
"a_b" with prefix "c".) -/
theorem getClusterName_resourceID_inj (epPfx org vHost title version r1 r2 : String) :
    getClusterName epPfx org vHost title version r1 =
        getClusterName epPfx org vHost title version r2 ↔
      (stripSpaces r1 = stripSpaces r2 ∧ (r1 = "" ↔ r2 = "")) := by
  by_cases h1 : r1 = ""
  · by_cases h2 : r2 = ""
    · subst h1; subst h2; simp
    · subst h1
      have e0 : getClusterName epPfx org vHost title version "" =
          goTrimSpace (org ++ "_" ++ epPfx ++ "_" ++ vHost ++ "_" ++
            stripSpaces title ++ version) := by
        simp [getClusterName]
      have e2 : getClusterName epPfx org vHost title version r2 =
          goTrimSpace (org ++ "_" ++ epPfx ++ "_" ++ vHost ++ "_" ++
            stripSpaces title ++ version) ++ "_" ++ stripSpaces r2 ++ "0" := by
        simp [getClusterName, h2]
      rw [e0, e2]
      constructor
      · intro h
        exact absurd h (strAppend_tail_ne _ _)
      · rintro ⟨-, hiff⟩
        exact absurd (hiff.mp rfl) h2
  · by_cases h2 : r2 = ""
    · subst h2
      have e0 : getClusterName epPfx org vHost title version "" =
          goTrimSpace (org ++ "_" ++ epPfx ++ "_" ++ vHost ++ "_" ++
            stripSpaces title ++ version) := by
        simp [getClusterName]
      have e1 : getClusterName epPfx org vHost title version r1 =
          goTrimSpace (org ++ "_" ++ epPfx ++ "_" ++ vHost ++ "_" ++
            stripSpaces title ++ version) ++ "_" ++ stripSpaces r1 ++ "0" := by
        simp [getClusterName, h1]
      rw [e0, e1]
      constructor
      · intro h
        exact absurd h.symm (strAppend_tail_ne _ _)
      · rintro ⟨-, hiff⟩
        exact absurd (hiff.mpr rfl) h1
    · have e1 : getClusterName epPfx org vHost title version r1 =
          goTrimSpace (org ++ "_" ++ epPfx ++ "_" ++ vHost ++ "_" ++
            stripSpaces title ++ version) ++ "_" ++ stripSpaces r1 ++ "0" := by
        simp [getClusterName, h1]
      have e2 : getClusterName epPfx org vHost title version r2 =
          goTrimSpace (org ++ "_" ++ epPfx ++ "_" ++ vHost ++ "_" ++
            stripSpaces title ++ version) ++ "_" ++ stripSpaces r2 ++ "0" := by
        simp [getClusterName, h2]
      rw [e1, e2, strAppend_tail_inj]
      simp [h1, h2]

/-! ### C5: sandbox cluster-header matcher -/

/-- C5 counterexample: a route created as a sandbox duplicate with
rewriteMethod set carries no header matchers at all, in particular no
exact-match cluster-selector matcher, because the source only appends the
sandbox matcher inside the branch that also builds the method matcher. -/
theorem createRoute_sandbox_rewriteMethod_no_matcher :
    (createRoute { resourceMethods := ["GET"], isSandbox := true, rewriteMethod := true, sandClusterName := "sandCluster" }).matchHeaders = [] ∧
    ({ resourceMethods := ["GET"], isSandbox := true, rewriteMethod := true, sandClusterName := "sandCluster" } : RouteCreateParams).isSandbox = true := by
  refine ⟨by decide, rfl⟩

/-- C5 amended: a sandbox route carries the additional exact-equality
matcher of the cluster-selector header against the sandbox cluster name
whenever rewriteMethod is false; production routes never carry such a
matcher; and when rewriteMethod is true the route carries no header
matchers at all, so the sandbox matcher is dropped together with the
method matcher. -/
theorem createRoute_sandbox_header (params : RouteCreateParams) :
    (params.isSandbox = true → params.rewriteMethod = false →
      (createRoute params).matchHeaders.filter (fun h => h.name == clusterHeaderName) =
        [{ name := clusterHeaderName, spec := StringMatchSpec.exact params.sandClusterName }]) ∧
    (params.isSandbox = false →
      (createRoute params).matchHeaders.filter (fun h => h.name == clusterHeaderName) = []) ∧
    (params.rewriteMethod = true → (createRoute params).matchHeaders = []) := by
  have hne : (httpMethodHeader == clusterHeaderName) = false := by decide
  refine ⟨?_, ?_, ?_⟩
  · intro hs hr
    simp [createRoute, hs, hr, List.filter, hne]
  · intro hs
    by_cases hr : params.rewriteMethod
    · simp [createRoute, hs, hr]
    · simp [createRoute, hs, hr, List.filter, hne]
  · intro hr
    simp [createRoute, hr]

theorem createRoute_sandbox_header_witness :
    (createRoute { resourceMethods := ["GET"], isSandbox := true, rewriteMethod := false, sandClusterName := "sandC" }).matchHeaders.filter (fun h => h.name == clusterHeaderName) =
      [{ name := clusterHeaderName, spec := StringMatchSpec.exact "sandC" }] :=
  (createRoute_sandbox_header { resourceMethods := ["GET"], isSandbox := true, rewriteMethod := false, sandClusterName := "sandC" }).1 rfl rfl

/-! ### Route-list structure of the translator (helpers for C1 and C2) -/

theorem createRoute_isSandbox (p : RouteCreateParams) :
    (createRoute p).isSandbox = p.isSandbox := rfl

theorem createRoute_pathCtx (p : RouteCreateParams) :
    (createRoute p).resourcePathContext = p.resourcePathParam := rfl

theorem genParams_isSandbox (m : MgwSwagger) (r : Resource)
    (vHost bp cp cs : String) (ri ro : List (String × InterceptEndpoint))
    (org : String) (b : Bool) :
    (genRouteCreateParams m (some r) vHost bp cp cs ri ro org b).isSandbox = b := rfl

theorem genParams_path (m : MgwSwagger) (r : Resource)
    (vHost bp cp cs : String) (ri ro : List (String × InterceptEndpoint))
    (org : String) (b : Bool) :
    (genRouteCreateParams m (some r) vHost bp cp cs ri ro org b).resourcePathParam = r.path := rfl

theorem emitRoutes_shape (c : Bool) (p1 p2 : RouteCreateParams) (path : String)
    (hs1 : p1.isSandbox = true) (hs2 : p2.isSandbox = false)
    (hp1 : p1.resourcePathParam = path) (hp2 : p2.resourcePathParam = path) :
    ((emitRoutes c (createRoute p1) (createRoute p2)).map Route.isSandbox = [false] ∨
      (emitRoutes c (createRoute p1) (createRoute p2)).map Route.isSandbox = [true, false]) ∧
    ∀ rt ∈ emitRoutes c (createRoute p1) (createRoute p2),
      rt.resourcePathContext = path := by
  cases c <;>
    simp [emitRoutes, createRoute_isSandbox, createRoute_pathCtx, hs1, hs2, hp1, hp2]

theorem stepResource_shape (m : MgwSwagger) (vHost org bpProd cnProd cnSand : String)
    (strict : Bool) (aReq aResp : InterceptEndpoint) (sandBP : String) (r : Resource)
    (rts : List Route) (cs : List Cluster) (as2 : List Address) (bp2 : String)
    (h : stepResource m vHost org bpProd cnProd cnSand strict aReq aResp sandBP r =
      some (rts, cs, as2, bp2)) :
    (rts.map Route.isSandbox = [false] ∨ rts.map Route.isSandbox = [true, false]) ∧
    ∀ rt ∈ rts, rt.resourcePathContext = r.path := by
  simp only [stepResource] at h
  split at h
  · exact absurd h (by simp)
  split at h
  · exact absurd h (by simp)
  split at h
  · exact absurd h (by simp)
  split at h
  · exact absurd h (by simp)
  split at h
  · exact absurd h (by simp)
  split at h
  · exact absurd h (by simp)
  simp only [Option.some.injEq, Prod.mk.injEq] at h
  obtain ⟨hrts, -, -, -⟩ := h
  subst hrts
  exact emitRoutes_shape _ _ _ r.path (genParams_isSandbox ..) (genParams_isSandbox ..)
    (genParams_path ..) (genParams_path ..)

theorem resourceLoop_blocks (m : MgwSwagger) (vHost org bpProd cnProd cnSand : String)
    (strict : Bool) (aReq aResp : InterceptEndpoint) :
    ∀ (rs : List Resource) (sandBP : String) (routes : List Route)
      (cs : List Cluster) (as2 : List Address),
      resourceLoop m vHost org bpProd cnProd cnSand strict aReq aResp sandBP rs =
        some (routes, cs, as2) →
      ∃ blocks : List (List Route),
        routes = blocks.flatten ∧ blocks.length = rs.length ∧
        ∀ i (h1 : i < blocks.length) (h2 : i < rs.length),
          (blocks[i].map Route.isSandbox = [false] ∨
            blocks[i].map Route.isSandbox = [true, false]) ∧
          ∀ rt ∈ blocks[i], rt.resourcePathContext = rs[i].path := by
  intro rs
  induction rs with
  | nil =>
    intro sandBP routes cs as2 h
    simp only [resourceLoop, Option.some.injEq, Prod.mk.injEq] at h
    obtain ⟨h1, -, -⟩ := h
    exact ⟨[], by simp [← h1], by simp, by intro i h1 h2; simp at h2⟩
  | cons r rest ih =>
    intro sandBP routes cs as2 h
    simp only [resourceLoop] at h
    split at h
    · exact absurd h (by simp)
    rename_i step rts1 cs1 as1 sandBP2 hstep
    split at h
    · exact absurd h (by simp)
    rename_i rec rts2 cs2 as3 hrec
    simp only [Option.some.injEq, Prod.mk.injEq] at h
    obtain ⟨hr, -, -⟩ := h
    obtain ⟨blocks, hb1, hb2, hb3⟩ := ih sandBP2 rts2 cs2 as3 hrec
    have hshape := stepResource_shape m vHost org bpProd cnProd cnSand strict aReq aResp
      sandBP r rts1 cs1 as1 sandBP2 hstep
    refine ⟨rts1 :: blocks, ?_, ?_, ?_⟩
    · rw [← hr, hb1]
      simp
    · simp [hb2]
    · intro i h1 h2
      match i with
      | 0 => simpa using hshape
      | j + 1 =>
        simp only [List.length_cons, Nat.add_lt_add_iff_right] at h1 h2
        simpa using hb3 j h1 h2

theorem flatten_map_singleton {α β : Type} (f : α → β) (l : List α) :
    (l.map (fun x => [f x])).flatten = l.map f := by
  induction l with
  | nil => rfl
  | cons x xs ih => simp [ih]

theorem blocks_of_map (rs : List Resource) (g : Resource → RouteCreateParams)
    (hs : ∀ r, (g r).isSandbox = false) (hp : ∀ r, (g r).resourcePathParam = r.path) :
    ∃ blocks : List (List Route),
      rs.map (fun r => createRoute (g r)) = blocks.flatten ∧ blocks.length = rs.length ∧
      ∀ i (h1 : i < blocks.length) (h2 : i < rs.length),
        (blocks[i].map Route.isSandbox = [false] ∨
          blocks[i].map Route.isSandbox = [true, false]) ∧
        ∀ rt ∈ blocks[i], rt.resourcePathContext = rs[i].path := by
  refine ⟨rs.map (fun r => [createRoute (g r)]), (flatten_map_singleton _ _).symm, by simp, ?_⟩
  intro i h1 h2
  constructor
  · left
    simp [createRoute_isSandbox, hs]
  · intro rt hrt
    simp only [List.getElem_map, List.mem_singleton] at hrt
    subst hrt
    simp [createRoute_pathCtx, hp]

theorem createRoutes_blocks (m : MgwSwagger) (vHost org : String)
    (routes : List Route) (cs : List Cluster) (as2 : List Address)
    (h : CreateRoutesWithClusters m vHost org = some (routes, cs, as2)) :
    ∃ blocks : List (List Route),
      routes = blocks.flatten ∧ blocks.length = m.resources.length ∧
      ∀ i (h1 : i < blocks.length) (h2 : i < m.resources.length),
        (blocks[i].map Route.isSandbox = [false] ∨
          blocks[i].map Route.isSandbox = [true, false]) ∧
        ∀ rt ∈ blocks[i], rt.resourcePathContext = m.resources[i].path := by
  simp only [CreateRoutesWithClusters] at h
  split at h
  · exact absurd h (by simp)
  split at h
  · exact absurd h (by simp)
  split at h
  · exact absurd h (by simp)
  split at h
  · exact absurd h (by simp)
  split at h
  · exact absurd h (by simp)
  split at h
  · -- websocket branch: one production route per resource
    simp only [Option.some.injEq, Prod.mk.injEq] at h
    obtain ⟨hr, -, -⟩ := h
    subst hr
    exact blocks_of_map m.resources _ (fun r => genParams_isSandbox ..)
      (fun r => genParams_path ..)
  · split at h
    · exact absurd h (by simp)
    rename_i rec rts cs6 as6 hrec
    simp only [Option.some.injEq, Prod.mk.injEq] at h
    obtain ⟨hr, -, -⟩ := h
    subst hr
    exact resourceLoop_blocks m vHost org _ _ _ _ _ _ m.resources _ rts cs6 as6 hrec

/-! ### C1: sandbox routes precede production routes, resources in order -/

/-- C1: any route list returned by CreateRoutesWithClusters decomposes into
one consecutive block per resource, in model order; a block is either the
single production route or the sandbox route followed immediately by the
production route, so every emitted sandbox route sits at a strictly lower
index than the production route of the same resource. -/
theorem sandbox_route_before_production (m : MgwSwagger) (vHost org : String)
    (routes : List Route) (cs : List Cluster) (as2 : List Address)
    (h : CreateRoutesWithClusters m vHost org = some (routes, cs, as2)) :
    ∃ blocks : List (List Route),
      routes = blocks.flatten ∧ blocks.length = m.resources.length ∧
      ∀ i (h1 : i < blocks.length) (h2 : i < m.resources.length),
        (blocks[i].map Route.isSandbox = [false] ∨
          blocks[i].map Route.isSandbox = [true, false]) ∧
        ∀ rt ∈ blocks[i], rt.resourcePathContext = m.resources[i].path :=
  createRoutes_blocks m vHost org routes cs as2 h

theorem sandbox_route_before_production_witness :
    ∃ routes cs as2,
      CreateRoutesWithClusters { title := "petstore", version := "v1", apiType := "REST", xWso2Basepath := "/api", prodEndpoints := some { endpoints := [{ basepath := "/v2" }] }, sandEndpoints := some { endpoints := [{ basepath := "/v2-sand" }] }, resources := [{ id := "r1", path := "/pets", methods := ["GET"] }] } "gw" "O" = some (routes, cs, as2) ∧
      ∃ blocks : List (List Route),
        routes = blocks.flatten ∧
        blocks.length = ({ title := "petstore", version := "v1", apiType := "REST", xWso2Basepath := "/api", prodEndpoints := some { endpoints := [{ basepath := "/v2" }] }, sandEndpoints := some { endpoints := [{ basepath := "/v2-sand" }] }, resources := [{ id := "r1", path := "/pets", methods := ["GET"] }] } : MgwSwagger).resources.length ∧
        ∀ i (h1 : i < blocks.length) (h2 : i < ({ title := "petstore", version := "v1", apiType := "REST", xWso2Basepath := "/api", prodEndpoints := some { endpoints := [{ basepath := "/v2" }] }, sandEndpoints := some { endpoints := [{ basepath := "/v2-sand" }] }, resources := [{ id := "r1", path := "/pets", methods := ["GET"] }] } : MgwSwagger).resources.length),
          (blocks[i].map Route.isSandbox = [false] ∨
            blocks[i].map Route.isSandbox = [true, false]) ∧
          ∀ rt ∈ blocks[i], rt.resourcePathContext = ({ title := "petstore", version := "v1", apiType := "REST", xWso2Basepath := "/api", prodEndpoints := some { endpoints := [{ basepath := "/v2" }] }, sandEndpoints := some { endpoints := [{ basepath := "/v2-sand" }] }, resources := [{ id := "r1", path := "/pets", methods := ["GET"] }] } : MgwSwagger).resources[i].path := by
  have hs : (CreateRoutesWithClusters { title := "petstore", version := "v1", apiType := "REST", xWso2Basepath := "/api", prodEndpoints := some { endpoints := [{ basepath := "/v2" }] }, sandEndpoints := some { endpoints := [{ basepath := "/v2-sand" }] }, resources := [{ id := "r1", path := "/pets", methods := ["GET"] }] } "gw" "O").isSome = true := by decide
  obtain ⟨out, hout⟩ := Option.isSome_iff_exists.mp hs
  exact ⟨out.1, out.2.1, out.2.2, by rw [hout],
    sandbox_route_before_production _ "gw" "O" out.1 out.2.1 out.2.2 (by rw [hout])⟩

/-! ### C2: base-path mismatch fails the group without stopping translation -/

theorem processEPLoop_mismatch (epType basePath : String) :
    ∀ (eps : List Endpoint) (pr : Nat),
      (∃ ep ∈ eps, goTrimSuffix ep.basepath "/" ≠ basePath) →
      ∃ msg, processEPLoop epType basePath eps pr = Except.error msg := by
  intro eps
  induction eps with
  | nil =>
    intro pr h
    simp at h
  | cons e rest ih =>
    intro pr h
    by_cases he : goTrimSuffix e.basepath "/" ≠ basePath
    · exact ⟨"endpoint basepath mismatched for " ++ e.rawURL ++ ". expected : " ++
        basePath ++ " but found : " ++ e.basepath, by simp [processEPLoop, he]⟩
    · obtain ⟨ep, hmem, hne⟩ := h
      rcases List.mem_cons.mp hmem with rfl | hmem2
      · exact absurd hne he
      · obtain ⟨msg, hm⟩ := ih _ ⟨ep, hmem2, hne⟩
        refine ⟨msg, ?_⟩
        simp only [processEPLoop, if_neg he]
        rw [hm]

theorem length_le_flatten (blocks : List (List Route)) (h : ∀ b ∈ blocks, b ≠ []) :
    blocks.length ≤ blocks.flatten.length := by
  induction blocks with
  | nil => simp
  | cons b bs ih =>
    simp only [List.flatten_cons, List.length_append, List.length_cons]
    have hb : 1 ≤ b.length := List.length_pos.mpr (h b (by simp))
    have hrest := ih (fun x hx => h x (by simp [hx]))
    omega

/-- C2: (a) whenever some endpoint of a group has a trailing-slash
normalized base path different from the expected base path,
processEndpoints returns an error; (b) for the API-level production group
this makes the translator record no cluster and no address for the group
(and blank the cluster name) while keeping the base path; (c) translation
of the resources always continues: every resource still contributes at
least one route to the output. -/
theorem processEndpoints_mismatch_drops_group :
    (∀ (clusterName : String) (cd : EndpointCluster) (basePath : String),
      (∃ ep ∈ cd.endpoints, goTrimSuffix ep.basepath "/" ≠ basePath) →
      ∃ msg, processEndpoints clusterName cd basePath = PEResult.error msg) ∧
    (∀ (m : MgwSwagger) (vHost org : String) (ec : EndpointCluster),
      m.prodEndpoints = some ec → ec.endpoints ≠ [] →
      goContains ec.endpointPfx xWso2EPClustersConfigNamePfx = false →
      (∃ ep ∈ ec.endpoints,
        goTrimSuffix ep.basepath "/" ≠ goTrimSuffix (headBasepath ec) "/") →
      apiProdPhase m vHost org = some (goTrimSuffix (headBasepath ec) "/", "", [], [])) ∧
    (∀ (m : MgwSwagger) (vHost org : String) routes cs as2,
      CreateRoutesWithClusters m vHost org = some (routes, cs, as2) →
      m.resources.length ≤ routes.length) := by
  have part1 : ∀ (clusterName : String) (cd : EndpointCluster) (basePath : String),
      (∃ ep ∈ cd.endpoints, goTrimSuffix ep.basepath "/" ≠ basePath) →
      ∃ msg, processEndpoints clusterName cd basePath = PEResult.error msg := by
    intro clusterName cd basePath h
    obtain ⟨msg, hm⟩ := processEPLoop_mismatch cd.endpointType basePath cd.endpoints 0 h
    exact ⟨msg, by simp [processEndpoints, hm]⟩
  refine ⟨part1, ?_, ?_⟩
  · intro m vHost org ec hpe hne hmark hmis
    obtain ⟨msg, hm⟩ := part1
      (getClusterName ec.endpointPfx org vHost m.title m.version "") ec
      (goTrimSuffix (headBasepath ec) "/") hmis
    simp only [apiProdPhase, hpe]
    rw [if_pos (List.length_pos.mpr hne), if_pos (by simp [hmark]), hm]
  · intro m vHost org routes cs as2 h
    obtain ⟨blocks, h1, h2, h3⟩ := createRoutes_blocks m vHost org routes cs as2 h
    have hne : ∀ b ∈ blocks, b ≠ [] := by
      intro b hb
      obtain ⟨i, hi, rfl⟩ := List.mem_iff_getElem.mp hb
      have h2i : i < m.resources.length := by omega
      rcases (h3 i hi h2i).1 with hmap | hmap <;> intro hnil <;> rw [hnil] at hmap <;>
        simp at hmap
    rw [h1]
    calc m.resources.length = blocks.length := h2.symm
      _ ≤ blocks.flatten.length := length_le_flatten blocks hne

theorem processEndpoints_mismatch_drops_group_witness :
    (∃ msg, processEndpoints "c" { endpoints := [{ basepath := "/a" }, { basepath := "/b" }] } "/a" = PEResult.error msg) ∧
    apiProdPhase { title := "t", version := "v", apiType := "REST", prodEndpoints := some { endpoints := [{ basepath := "/a" }, { basepath := "/b" }] }, resources := [{ id := "r", path := "/p", methods := ["GET"] }] } "gw" "O" = some (goTrimSuffix (headBasepath { endpoints := [{ basepath := "/a" }, { basepath := "/b" }] }) "/", "", [], []) ∧
    (∃ routes cs as2, CreateRoutesWithClusters { title := "t", version := "v", apiType := "REST", prodEndpoints := some { endpoints := [{ basepath := "/a" }, { basepath := "/b" }] }, resources := [{ id := "r", path := "/p", methods := ["GET"] }] } "gw" "O" = some (routes, cs, as2) ∧
      ({ title := "t", version := "v", apiType := "REST", prodEndpoints := some { endpoints := [{ basepath := "/a" }, { basepath := "/b" }] }, resources := [{ id := "r", path := "/p", methods := ["GET"] }] } : MgwSwagger).resources.length ≤ routes.length) := by
  refine ⟨processEndpoints_mismatch_drops_group.1 "c" _ "/a" ⟨{ basepath := "/b" }, by decide, by decide⟩,
    processEndpoints_mismatch_drops_group.2.1 _ "gw" "O" _ rfl (by decide) (by decide) ⟨{ basepath := "/b" }, by decide, by decide⟩,
    ?_⟩
  have hs : (CreateRoutesWithClusters { title := "t", version := "v", apiType := "REST", prodEndpoints := some { endpoints := [{ basepath := "/a" }, { basepath := "/b" }] }, resources := [{ id := "r", path := "/p", methods := ["GET"] }] } "gw" "O").isSome = true := by decide
  obtain ⟨out, hout⟩ := Option.isSome_iff_exists.mp hs
  exact ⟨out.1, out.2.1, out.2.2, by rw [hout],
    processEndpoints_mismatch_drops_group.2.2 _ "gw" "O" out.1 out.2.1 out.2.2 (by rw [hout])⟩

/-! ### C4: the method header matcher -/

theorem prefix_through_append {c : Char} :
    ∀ {a : List Char} {ys b : List Char}, c ∉ ys → ys <+: a ++ c :: b → ys <+: a := by
  intro a
  induction a with
  | nil =>
    intro ys b hc h
    match ys, h with
    | [], _ => exact List.nil_prefix
    | y :: ys2, h =>
      obtain ⟨rfl, -⟩ := (List.cons_prefix_cons.mp h)
      exact absurd (List.mem_cons_self _ _) hc
  | cons x a2 ih =>
    intro ys b hc h
    match ys, h with
    | [], _ => exact List.nil_prefix
    | y :: ys2, h =>
      obtain ⟨rfl, h2⟩ := (List.cons_prefix_cons.mp h)
      have hc2 : c ∉ ys2 := fun hx => hc (List.mem_cons_of_mem _ hx)
      exact List.cons_prefix_cons.mpr ⟨rfl, ih hc2 h2⟩

theorem infix_through_append {c : Char} :
    ∀ {a : List Char} {xs b : List Char}, c ∉ xs → xs <:+: a ++ c :: b →
      xs <:+: a ∨ xs <:+: b := by
  intro a
  induction a with
  | nil =>
    intro xs b hc h
    rcases List.infix_cons_iff.mp h with hp | hi
    · left
      match xs, hp with
      | [], _ => exact List.nil_infix
      | y :: ys2, hp =>
        obtain ⟨rfl, -⟩ := List.cons_prefix_cons.mp hp
        exact absurd (List.mem_cons_self _ _) hc
    · exact Or.inr hi
  | cons x a2 ih =>
    intro xs b hc h
    rw [List.cons_append] at h
    rcases List.infix_cons_iff.mp h with hp | hi
    · left
      exact (prefix_through_append hc hp).isInfix
    · rcases ih hc hi with h2 | h2
      · exact Or.inl (List.infix_cons_iff.mpr (Or.inr h2))
      · exact Or.inr h2

theorem mem_infix_goJoin {m : String} :
    ∀ {l : List String}, m ∈ l → m.data <:+: (goJoin "|" l).data := by
  intro l
  induction l with
  | nil => intro h; simp at h
  | cons x xs ih =>
    intro h
    match xs with
    | [] =>
      rcases List.mem_singleton.mp h with rfl
      exact List.infix_refl _
    | y :: ys =>
      rcases List.mem_cons.mp h with rfl | h2
      · refine ⟨[], '|' :: (goJoin "|" (y :: ys)).data, ?_⟩
        simp [goJoin, String.data_append]
      · obtain ⟨s, t, heq⟩ := ih h2
        refine ⟨x.data ++ '|' :: s, t, ?_⟩
        simp [goJoin, String.data_append, heq]

theorem infix_goJoin_member {xs : List Char} (hp : '|' ∉ xs) (hne : xs ≠ []) :
    ∀ {l : List String}, xs <:+: (goJoin "|" l).data → ∃ m ∈ l, xs <:+: m.data := by
  intro l
  induction l with
  | nil =>
    intro h
    have : xs = [] := List.eq_nil_of_sublist_nil h.sublist
    exact absurd this hne
  | cons x xs2 ih =>
    intro h
    match xs2 with
    | [] => exact ⟨x, by simp, h⟩
    | y :: ys =>
      have hdata : (goJoin "|" (x :: y :: ys)).data =
          x.data ++ '|' :: (goJoin "|" (y :: ys)).data := by
        simp [goJoin, String.data_append]
      rw [hdata] at h
      rcases infix_through_append hp h with h2 | h2
      · exact ⟨x, by simp, h2⟩
      · obtain ⟨m, hm, hinf⟩ := ih h2
        exact ⟨m, by simp [hm], hinf⟩

theorem OPTIONS_infix_std (m : String) (hm : m ∈ standardHTTPMethods)
    (h : "OPTIONS".data <:+: m.data) : m = "OPTIONS" := by
  fin_cases hm <;> first | rfl | (exfalso; revert h; decide)

theorem goContains_join_OPTIONS (l : List String)
    (hstd : ∀ m ∈ l, m ∈ standardHTTPMethods) :
    goContains (goJoin "|" l) "OPTIONS" = true ↔ "OPTIONS" ∈ l := by
  unfold goContains
  rw [decide_eq_true_iff]
  constructor
  · intro h
    obtain ⟨m, hm, hinf⟩ := infix_goJoin_member (by decide) (by decide) h
    exact (OPTIONS_infix_std m (hstd m hm) hinf) ▸ hm
  · intro h
    exact mem_infix_goJoin h

/-- C4: with a method list drawn from the standard HTTP verbs (the data
model of the spec restricts method lists to these), a route built with
rewriteMethod false carries exactly one matcher on the :method
pseudo-header, whose regex is the methods joined by pipes wrapped in an
anchored group, with OPTIONS appended when absent from the list; with
rewriteMethod true no :method matcher (indeed no header matcher) is
attached. -/
theorem createRoute_method_regex (params : RouteCreateParams)
    (hstd : ∀ mth ∈ params.resourceMethods, mth ∈ standardHTTPMethods) :
    (params.rewriteMethod = false →
      (createRoute params).matchHeaders.filter (fun h => h.name == httpMethodHeader) =
        [{ name := httpMethodHeader,
           spec := StringMatchSpec.regex
             ("^(" ++ specMethodRegexBody params.resourceMethods ++ ")$") }]) ∧
    (params.rewriteMethod = true → (createRoute params).matchHeaders = []) := by
  constructor
  · intro hr
    have hregex : (if goContains (goJoin "|" params.resourceMethods) "OPTIONS" = false then
          goJoin "|" params.resourceMethods ++ "|OPTIONS"
        else goJoin "|" params.resourceMethods) = specMethodRegexBody params.resourceMethods := by
      unfold specMethodRegexBody
      by_cases hmem : "OPTIONS" ∈ params.resourceMethods
      · rw [if_neg (by simp [(goContains_join_OPTIONS _ hstd).mpr hmem]), if_pos hmem]
      · have hfalse : goContains (goJoin "|" params.resourceMethods) "OPTIONS" = false := by
          rw [← Bool.not_eq_true]
          intro hcon
          exact hmem ((goContains_join_OPTIONS _ hstd).mp hcon)
        rw [if_pos hfalse, if_neg hmem]
    have htt : (httpMethodHeader == httpMethodHeader) = true := by decide
    have hcf : (clusterHeaderName == httpMethodHeader) = false := by decide
    by_cases hsand : params.isSandbox = true
    · simp [createRoute, hr, hsand, List.filter, htt, hcf, hregex]
    · simp [createRoute, hr, hsand, List.filter, htt, hcf, hregex]
  · intro hr
    simp [createRoute, hr]

theorem createRoute_method_regex_witness :
    (createRoute { resourceMethods := ["GET", "POST"], rewriteMethod := false }).matchHeaders.filter
        (fun h => h.name == httpMethodHeader) =
      [{ name := httpMethodHeader,
         spec := StringMatchSpec.regex ("^(" ++ specMethodRegexBody ["GET", "POST"] ++ ")$") }] :=
  (createRoute_method_regex { resourceMethods := ["GET", "POST"], rewriteMethod := false }
    (by decide)).1 rfl

/-! ### C6: the default-version base path rewrite -/

theorem lastIdxAux_short (pat : List Char) :
    ∀ (s : List Char) (i acc : Int), s.length < pat.length → lastIdxAux pat s i acc = acc := by
  intro s
  induction s with
  | nil => intro i acc _; rfl
  | cons c rest ih =>
    intro i acc h
    simp only [List.length_cons] at h
    have hp : pat.isPrefixOf (c :: rest) = false := by
      rw [← Bool.not_eq_true]
      intro hb
      have := isPrefixOf_length_le hb
      simp only [List.length_cons] at this
      omega
    simp only [lastIdxAux, hp, if_false, Bool.false_eq_true]
    exact ih (i + 1) acc (by omega)

theorem lastIdxAux_last (pat : List Char) (hne : pat ≠ []) :
    ∀ (a : List Char) (i acc : Int),
      (∀ j, j < a.length → pat.isPrefixOf ((a ++ pat).drop j) = false) →
      lastIdxAux pat (a ++ pat) i acc = i + a.length := by
  intro a
  induction a with
  | nil =>
    intro i acc _
    match pat, hne with
    | c :: rest, _ =>
      have hp : (c :: rest).isPrefixOf (c :: rest) = true :=
        List.isPrefixOf_iff_prefix.mpr (List.prefix_refl _)
      simp only [List.nil_append, lastIdxAux, hp, if_true]
      rw [lastIdxAux_short (c :: rest) rest (i + 1) i (by simp)]
      simp
  | cons x a2 ih =>
    intro i acc h
    have h0 : pat.isPrefixOf (x :: (a2 ++ pat)) = false := by
      have := h 0 (by simp)
      simpa using this
    simp only [List.cons_append, lastIdxAux, List.append_eq, h0, Bool.false_eq_true,
      if_false]
    rw [ih (i + 1) acc (fun j hj => by
      have := h (j + 1) (by simp; omega)
      simpa using this)]
    simp only [List.length_cons]
    push_cast
    ring

theorem replaceLoop_unique_suffix (p0 : Char) (ps : List Char) :
    ∀ (a : List Char) (n : Int),
      (∀ j, j < a.length → (p0 :: ps).isPrefixOf ((a ++ p0 :: ps).drop j) = false) →
      n ≠ 0 →
      replaceLoop p0 ps [] (a ++ p0 :: ps) n = a := by
  intro a
  induction a with
  | nil =>
    intro n _ hn
    rw [List.nil_append, replaceLoop_cons, if_neg hn,
      if_pos (List.isPrefixOf_iff_prefix.mpr (List.prefix_refl _))]
    simp [List.drop_length, replaceLoop_nil]
  | cons x a2 ih =>
    intro n h hn
    have h0 : (p0 :: ps).isPrefixOf (x :: (a2 ++ p0 :: ps)) = false := by
      have := h 0 (by simp)
      simpa using this
    rw [List.cons_append, replaceLoop_cons, if_neg hn, if_neg (by simp [h0])]
    rw [ih n (fun j hj => by
      have := h (j + 1) (by simp; omega)
      simpa using this) hn]

/-- C6 counterexample: for base path /v2/foo/v2 and version v2 the source
passes the last index (7) of the slash-version fragment as the replacement
count of strings.Replace, which removes both occurrences, not only the
last one as the claim states; removing only the last occurrence would give
/v2/foo. -/
theorem getDefaultVersionBasepath_not_last_only :
    getDefaultVersionBasepath "/v2/foo/v2" "v2" = "(?:/v2/foo/v2|/foo)" ∧
    removeLastOccurrence "/v2/foo/v2" "/v2" = "/v2/foo" ∧
    getDefaultVersionBasepath "/v2/foo/v2" "v2" ≠
      "(?:" ++ "/v2/foo/v2" ++ "|" ++ removeLastOccurrence "/v2/foo/v2" "/v2" ++ ")" := by
  refine ⟨by decide, by decide, by decide⟩

/-- C6 amended: when the slash-version fragment occurs in the base path
only as its final suffix (no occurrence starts before the suffix position)
and the remaining prefix is non-empty, the replacement count equals the
prefix length, at least one, so the single occurrence is removed and the
rewritten regex offers exactly the base path and the base path without the
version suffix; in particular for /foo/v2 and v2 the regex pairs /foo/v2
with /foo.  In general the count quirk removes the first k occurrences
where k is the index of the last occurrence (see the counterexample). -/
theorem getDefaultVersionBasepath_unique_suffix (pre version : String)
    (hne : pre.data ≠ [])
    (hno : ∀ j, j < pre.data.length →
      (('/' :: version.data)).isPrefixOf ((pre.data ++ '/' :: version.data).drop j) = false) :
    getDefaultVersionBasepath (pre ++ "/" ++ version) version =
      "(?:" ++ (pre ++ "/" ++ version) ++ "|" ++ pre ++ ")" := by
  have hdata : (pre ++ "/" ++ version).data = pre.data ++ '/' :: version.data := by
    simp [String.data_append]
  have hsub : ("/" ++ version).data = '/' :: version.data := by
    simp [String.data_append]
  unfold getDefaultVersionBasepath goLastIndex goReplace
  rw [hsub]
  simp only [hdata]
  rw [lastIdxAux_last ('/' :: version.data) (by simp) pre.data 0 (-1) hno]
  rw [replaceLoop_unique_suffix '/' version.data pre.data (0 + pre.data.length)
    hno (by
      have : 0 < pre.data.length := List.length_pos.mpr hne
      omega)]

theorem getDefaultVersionBasepath_unique_suffix_witness :
    getDefaultVersionBasepath ("/foo" ++ "/" ++ "v2") "v2" =
      "(?:" ++ ("/foo" ++ "/" ++ "v2") ++ "|" ++ "/foo" ++ ")" :=
  getDefaultVersionBasepath_unique_suffix "/foo" "v2" (by decide)
    (by decide)

/-! ### C7: substitution preserves path parameters (machinery) -/

theorem digitChar_ne_star (d : Nat) : digitChar d ≠ '*' := by
  unfold digitChar
  split <;> decide

theorem star_not_mem_natDecimalF : ∀ fuel n, '*' ∉ natDecimalF fuel n := by
  intro fuel
  induction fuel with
  | zero =>
    intro n
    simp only [natDecimalF, List.mem_singleton]
    exact fun h => digitChar_ne_star n h.symm
  | succ g ih =>
    intro n
    by_cases h : n < 10
    · simp only [natDecimalF, if_pos h, List.mem_singleton]
      exact fun hh => digitChar_ne_star n hh.symm
    · simp only [natDecimalF, if_neg h, List.mem_append, List.mem_singleton]
      rintro (hm | hm)
      · exact ih (n / 10) hm
      · exact digitChar_ne_star (n % 10) hm.symm

theorem star_not_mem_numToken (k : Nat) : '*' ∉ numToken k := by
  unfold numToken natDecimal
  simp only [List.mem_cons]
  rintro (h | h)
  · exact absurd h (by decide)
  · exact star_not_mem_natDecimalF k k h

theorem takeWhile_name (n : List Char) (rest : List Char) (hn : '}' ∉ n) :
    (n ++ '}' :: rest).takeWhile (fun x => x != '}') = n ∧
    (n ++ '}' :: rest).dropWhile (fun x => x != '}') = '}' :: rest := by
  induction n with
  | nil => simp [List.takeWhile, List.dropWhile]
  | cons c n2 ih =>
    have hc : (c != '}') = true := by
      simp only [bne_iff_ne, ne_eq]
      exact fun h => hn (by simp [h])
    obtain ⟨ht, hd⟩ := ih (fun h => hn (List.mem_cons_of_mem _ h))
    simp [List.takeWhile_cons, List.dropWhile_cons, hc, ht, hd]

theorem renderWith_append (tok : Nat → List Char) :
    ∀ (a b : List PathPiece) (i : Nat),
      renderWith tok (a ++ b) i = renderWith tok a i ++ renderWith tok b (i + nParams a) := by
  intro a
  induction a with
  | nil =>
    intro b i
    simp [renderWith, nParams]
  | cons p a2 ih =>
    intro b i
    cases p with
    | lit c =>
      simp only [List.cons_append, List.append_eq, renderWith, nParams, ih, List.append_assoc]
    | param nm =>
      simp only [List.cons_append, List.append_eq, renderWith, nParams, ih, List.append_assoc]
      rw [show i + 1 + nParams a2 = i + (nParams a2 + 1) from by omega]

theorem renderWith_const (x : List Char) :
    ∀ (ps : List PathPiece) (i j : Nat),
      renderWith (fun _ => x) ps i = renderWith (fun _ => x) ps j := by
  intro ps
  induction ps with
  | nil => intro i j; rfl
  | cons p ps2 ih =>
    intro i j
    cases p with
    | lit c => simp only [renderWith, ih i j]
    | param nm => simp only [renderWith, ih (i + 1) (j + 1)]

theorem renderWith_shift (f : Nat → List Char) :
    ∀ (ps : List PathPiece) (i : Nat),
      renderWith (fun k => f (k + 1)) ps i = renderWith f ps (i + 1) := by
  intro ps
  induction ps with
  | nil => intro i; rfl
  | cons p ps2 ih =>
    intro i
    cases p with
    | lit c => simp only [renderWith, ih]
    | param nm => simp only [renderWith, ih]

theorem pieceOK_head {p : PathPiece} {ps2 : List PathPiece}
    (hok : piecesOK (p :: ps2) = true) : pieceOK p = true ∧ piecesOK ps2 = true := by
  simpa [piecesOK, List.all_cons, Bool.and_eq_true] using hok

theorem replaceParams_render :
    ∀ (ps : List PathPiece) (t : List Char) (repl : Nat → List Char) (i : Nat),
      piecesOK ps = true →
      replaceParams repl (renderPieces ps ++ t) i =
        renderWith repl ps i ++ replaceParams repl t (i + nParams ps) := by
  intro ps
  induction ps with
  | nil =>
    intro t repl i _
    simp [renderPieces, renderWith, nParams]
  | cons p ps2 ih =>
    intro t repl i hok
    obtain ⟨hp, hok2⟩ := pieceOK_head hok
    cases p with
    | lit c =>
      have hc : ¬ (c = '{') := by
        simp only [pieceOK, Bool.and_eq_true, bne_iff_ne, ne_eq] at hp
        exact hp.1.1
      simp only [renderPieces, List.cons_append]
      rw [replaceParams_cons, if_neg hc]
      simp only [renderWith, nParams]
      rw [ih t repl i hok2]
      simp
    | param nm =>
      have hnm : nm ≠ [] ∧ '}' ∉ nm := by
        simp only [pieceOK, Bool.and_eq_true] at hp
        constructor
        · intro h
          subst h
          simp at hp
        · have := hp.1.2
          simp at this
          exact this
      have hne : nm ≠ [] := hnm.1
      obtain ⟨ht, hd⟩ := takeWhile_name nm (renderPieces ps2 ++ t) hnm.2
      simp only [renderPieces, List.cons_append]
      rw [replaceParams_cons, if_pos rfl]
      have hassoc : (nm ++ '}' :: renderPieces ps2) ++ t = nm ++ '}' :: (renderPieces ps2 ++ t) := by
        simp
      rw [hassoc, hd]
      dsimp only
      rw [ht, if_neg hne]
      rw [ih t repl (i + 1) hok2]
      simp only [renderWith, nParams, List.append_assoc]
      rw [show i + 1 + nParams ps2 = i + (nParams ps2 + 1) from by omega]

theorem star_not_mem_renderWith (tok : Nat → List Char) (htok : ∀ k, '*' ∉ tok k) :
    ∀ (ps : List PathPiece) (i : Nat), piecesOK ps = true →
      '*' ∉ renderWith tok ps i := by
  intro ps
  induction ps with
  | nil => intro i _; simp [renderWith]
  | cons p ps2 ih =>
    intro i hok
    obtain ⟨hp, hok2⟩ := pieceOK_head hok
    cases p with
    | lit c =>
      simp only [renderWith, List.mem_cons]
      rintro (h | h)
      · simp only [pieceOK, Bool.and_eq_true, bne_iff_ne, ne_eq] at hp
        exact hp.2 h.symm
      · exact ih i hok2 h
    | param nm =>
      simp only [renderWith, List.mem_append]
      rintro (h | h)
      · exact htok i h
      · exact ih (i + 1) hok2 h

theorem star_not_mem_pat : '*' ∉ pathParaRegex.data := by decide

theorem star_not_mem_renderPieces :
    ∀ (ps : List PathPiece), piecesOK ps = true → '*' ∉ renderPieces ps := by
  intro ps
  induction ps with
  | nil => intro _; simp [renderPieces]
  | cons p ps2 ih =>
    intro hok
    obtain ⟨hp, hok2⟩ := pieceOK_head hok
    cases p with
    | lit c =>
      simp only [renderPieces, List.mem_cons]
      rintro (h | h)
      · simp only [pieceOK, Bool.and_eq_true, bne_iff_ne, ne_eq] at hp
        exact hp.2 h.symm
      · exact ih hok2 h
    | param nm =>
      simp only [renderPieces, List.mem_cons, List.mem_append]
      rintro (h | h | h | h)
      · exact absurd h (by decide)
      · simp only [pieceOK, Bool.and_eq_true] at hp
        have := hp.2
        simp at this
        exact this h
      · exact absurd h (by decide)
      · exact ih hok2 h

theorem isSuffixOf_append_self (x y : List Char) : y.isSuffixOf (x ++ y) = true :=
  List.isSuffixOf_iff_suffix.mpr (List.suffix_append x y)

theorem not_isSuffixOf_star {l t : List Char} (hstar : '*' ∉ l) (ht : '*' ∈ t) :
    t.isSuffixOf l = false := by
  rw [← Bool.not_eq_true]
  intro h
  exact hstar ((List.isSuffixOf_iff_suffix.mp h).subset ht)

theorem trimSuffixL_append (x y : List Char) : trimSuffixL (x ++ y) y = x := by
  unfold trimSuffixL
  rw [if_pos (isSuffixOf_append_self x y)]
  simp only [List.length_append, Nat.add_sub_cancel]
  exact List.take_left x y

theorem renumberAux_no_match :
    ∀ (s : List Char) (i : Nat),
      (∀ j, j < s.length → pathParaRegex.data.isPrefixOf (s.drop j) = false) →
      renumberAux i s = s := by
  intro s
  induction s with
  | nil => intro i _; rfl
  | cons c rest ih =>
    intro i h
    have h0 : pathParaRegex.data.isPrefixOf (c :: rest) = false := by
      simpa using h 0 (by simp)
    rw [renumberAux_cons, if_neg (by simp [h0])]
    rw [ih i (fun j hj => by
      have := h (j + 1) (by simp only [List.length_cons]; omega)
      simpa using this)]

theorem renumberAux_trailingSlash (i : Nat) :
    renumberAux i trailingSlashRegex.data = trailingSlashRegex.data :=
  renumberAux_no_match _ i (by decide)

theorem renumberAux_wildCard (i : Nat) :
    renumberAux i wildCardRegex.data = wildCardRegex.data :=
  renumberAux_no_match _ i (by decide)

theorem renumberAux_pat_head (i : Nat) (X : List Char) :
    renumberAux i (pathParaRegex.data ++ X) = numToken i ++ renumberAux (i + 1) X := by
  have hdata : pathParaRegex.data = '(' :: "[^/]+)".data := rfl
  rw [hdata, List.cons_append, renumberAux_cons, if_pos (by
    rw [hdata]
    exact List.isPrefixOf_iff_prefix.mpr
      (List.cons_prefix_cons.mpr ⟨rfl, List.prefix_append _ _⟩))]
  rw [show pathParaRegex.data.length - 1 = "[^/]+)".data.length from rfl, List.drop_left]

theorem renumber_render :
    ∀ (ps : List PathPiece) (i : Nat) (t : List Char), piecesOK ps = true →
      renumberAux i (renderWith (fun _ => pathParaRegex.data) ps 0 ++ t) =
        renderWith numToken ps i ++ renumberAux (i + nParams ps) t := by
  intro ps
  induction ps with
  | nil =>
    intro i t _
    simp [renderWith, nParams]
  | cons p ps2 ih =>
    intro i t hok
    obtain ⟨hp, hok2⟩ := pieceOK_head hok
    cases p with
    | lit c =>
      have hc : ¬ (c = '(') := by
        simp only [pieceOK, Bool.and_eq_true, bne_iff_ne, ne_eq] at hp
        exact hp.1.2
      have hcc : ('(' == c) = false := beq_eq_false_iff_ne.mpr (Ne.symm hc)
      have hdata : pathParaRegex.data = '(' :: "[^/]+)".data := rfl
      have hpre : pathParaRegex.data.isPrefixOf
          (c :: (renderWith (fun _ => pathParaRegex.data) ps2 0 ++ t)) = false := by
        rw [hdata]
        simp [List.isPrefixOf, hcc]
      simp only [renderWith, List.cons_append]
      rw [renumberAux_cons, if_neg (by simp [hpre])]
      rw [ih i t hok2]
      simp [nParams]
    | param nm =>
      have hidx : renderWith (fun _ => pathParaRegex.data) ps2 1 =
          renderWith (fun _ => pathParaRegex.data) ps2 0 := renderWith_const _ ps2 1 0
      simp only [renderWith, hidx, List.append_assoc]
      rw [renumberAux_pat_head]
      rw [ih (i + 1) t hok2]
      simp only [nParams, List.append_assoc]
      rw [show i + 1 + nParams ps2 = i + (nParams ps2 + 1) from by omega]

theorem renderPieces_append : ∀ (a b : List PathPiece),
    renderPieces (a ++ b) = renderPieces a ++ renderPieces b := by
  intro a
  induction a with
  | nil => intro b; simp [renderPieces]
  | cons p a2 ih =>
    intro b
    cases p with
    | lit c => simp [renderPieces, ih]
    | param nm => simp [renderPieces, ih]

theorem piecesOK_append_left {a b : List PathPiece} (h : piecesOK (a ++ b) = true) :
    piecesOK a = true ∧ piecesOK b = true := by
  simpa [piecesOK, List.all_append, Bool.and_eq_true] using h

theorem isSuffixOf_singleton_concat (a b : Char) (l : List Char) :
    ([a].isSuffixOf (l ++ [b])) = (b == a) := by
  by_cases h : b = a
  · subst h
    simp [isSuffixOf_append_self l [b]]
  · have h1 : ([a].isSuffixOf (l ++ [b])) = false := by
      rw [← Bool.not_eq_true]
      intro hs
      obtain ⟨t, ht⟩ := List.isSuffixOf_iff_suffix.mp hs
      have hlast := congrArg List.getLast? ht
      simp only [List.getLast?_concat] at hlast
      injection hlast with hba
      exact h hba.symm
    rw [h1]
    exact (beq_eq_false_iff_ne.mpr h).symm

theorem trimSuffixL_no {l t : List Char} (h : t.isSuffixOf l = false) :
    trimSuffixL l t = l := by
  unfold trimSuffixL
  rw [if_neg (by simp [h])]

theorem replaceParams_slashstar (repl : Nat → List Char) (j : Nat) :
    replaceParams repl "/*".data j = "/*".data := by
  have h1 : "/*".data = '/' :: '*' :: [] := rfl
  rw [h1, replaceParams_cons, if_neg (by decide), replaceParams_cons, if_neg (by decide),
    replaceParams_nil]

theorem replaceParams_render_nil (ps : List PathPiece) (repl : Nat → List Char) (i : Nat)
    (hok : piecesOK ps = true) :
    replaceParams repl (renderPieces ps) i = renderWith repl ps i := by
  have h := replaceParams_render ps [] repl i hok
  simpa [replaceParams_nil] using h

theorem last_analysis (ps : List PathPiece) (hok : piecesOK ps = true) :
    (∃ ps', ps = ps' ++ [PathPiece.lit '/'] ∧ piecesOK ps' = true) ∨
    (("/".data).isSuffixOf (renderWith (fun _ => pathParaRegex.data) ps 0) = false ∧
     ("/".data).isSuffixOf (renderPieces ps) = false) := by
  rcases List.eq_nil_or_concat ps with rfl | ⟨ps', p, hps⟩
  · right
    exact ⟨by decide, by decide⟩
  · rw [List.concat_eq_append] at hps
    subst hps
    obtain ⟨hok', hpl⟩ := piecesOK_append_left hok
    cases p with
    | lit c =>
      by_cases hc : c = '/'
      · subst hc
        exact Or.inl ⟨ps', rfl, hok'⟩
      · right
        have hR : renderWith (fun _ => pathParaRegex.data) (ps' ++ [PathPiece.lit c]) 0 =
            renderWith (fun _ => pathParaRegex.data) ps' 0 ++ [c] := by
          rw [renderWith_append]
          rfl
        have hP : renderPieces (ps' ++ [PathPiece.lit c]) = renderPieces ps' ++ [c] := by
          rw [renderPieces_append]
          rfl
        have hbe : (c == '/') = false := beq_eq_false_iff_ne.mpr hc
        constructor
        · rw [hR, show ("/".data) = ['/'] from rfl, isSuffixOf_singleton_concat, hbe]
        · rw [hP, show ("/".data) = ['/'] from rfl, isSuffixOf_singleton_concat, hbe]
    | param nm =>
      right
      have hR : renderWith (fun _ => pathParaRegex.data) (ps' ++ [PathPiece.param nm]) 0 =
          (renderWith (fun _ => pathParaRegex.data) ps' 0 ++ "([^/]+".data) ++ [')'] := by
        rw [renderWith_append]
        simp only [renderWith, List.append_nil, List.append_assoc]
        rfl
      have hP : renderPieces (ps' ++ [PathPiece.param nm]) =
          (renderPieces ps' ++ '{' :: nm) ++ ['}'] := by
        rw [renderPieces_append]
        simp [renderPieces]
      constructor
      · rw [hR, show ("/".data) = ['/'] from rfl, isSuffixOf_singleton_concat]
        decide
      · rw [hP, show ("/".data) = ['/'] from rfl, isSuffixOf_singleton_concat]
        decide

theorem gss_core (ps : List PathPiece) (base : String) (hok : piecesOK ps = true) :
    generateSubstitutionString ⟨renderPieces ps⟩ base =
      base ++ ⟨renderWith numToken ps 1⟩ := by
  have hstarR : '*' ∉ renderWith (fun _ => pathParaRegex.data) ps 0 :=
    star_not_mem_renderWith _ (fun _ => star_not_mem_pat) ps 0 hok
  have hseg : generatePathRegexSegment ⟨renderPieces ps⟩ =
      ⟨trimSuffixL (renderWith (fun _ => pathParaRegex.data) ps 0) "/".data ++
        trailingSlashRegex.data⟩ := by
    simp only [generatePathRegexSegment]
    rw [replaceParams_render_nil ps _ 0 hok]
    rw [if_neg (by simp [not_isSuffixOf_star hstarR (show '*' ∈ "/*".data from by decide)])]
  simp only [generateSubstitutionString]
  rw [hseg]
  rcases last_analysis ps hok with ⟨ps', hps, hok'⟩ | ⟨hR, hP⟩
  · subst hps
    have hstarNp : '*' ∉ renderWith numToken ps' 1 :=
      star_not_mem_renderWith numToken star_not_mem_numToken ps' 1 hok'
    have hRdec : renderWith (fun _ => pathParaRegex.data) (ps' ++ [PathPiece.lit '/']) 0 =
        renderWith (fun _ => pathParaRegex.data) ps' 0 ++ "/".data := by
      rw [renderWith_append]
      rfl
    have hPdec : renderPieces (ps' ++ [PathPiece.lit '/']) = renderPieces ps' ++ "/".data := by
      rw [renderPieces_append]
      rfl
    rw [hRdec, trimSuffixL_append]
    have hdd : (⟨renderWith (fun _ => pathParaRegex.data) ps' 0 ++ trailingSlashRegex.data⟩ :
        String).data = renderWith (fun _ => pathParaRegex.data) ps' 0 ++
        trailingSlashRegex.data := rfl
    rw [hdd, renumber_render ps' 1 trailingSlashRegex.data hok', renumberAux_trailingSlash]
    rw [if_neg (by
      simp only [Bool.not_eq_true]
      refine not_isSuffixOf_star ?_ (show '*' ∈ wildCardRegex.data from by decide)
      intro hmem
      rcases List.mem_append.mp hmem with h | h
      · exact hstarNp h
      · exact absurd h (by decide))]
    rw [hPdec, if_pos (isSuffixOf_append_self _ _), trimSuffixL_append]
    rw [show renderWith numToken (ps' ++ [PathPiece.lit '/']) 1 =
      renderWith numToken ps' 1 ++ "/".data from by rw [renderWith_append]; rfl]
  · have hstarN : '*' ∉ renderWith numToken ps 1 :=
      star_not_mem_renderWith numToken star_not_mem_numToken ps 1 hok
    rw [trimSuffixL_no hR]
    have hdd : (⟨renderWith (fun _ => pathParaRegex.data) ps 0 ++ trailingSlashRegex.data⟩ :
        String).data = renderWith (fun _ => pathParaRegex.data) ps 0 ++
        trailingSlashRegex.data := rfl
    rw [hdd, renumber_render ps 1 trailingSlashRegex.data hok, renumberAux_trailingSlash]
    rw [if_neg (by
      simp only [Bool.not_eq_true]
      refine not_isSuffixOf_star ?_ (show '*' ∈ wildCardRegex.data from by decide)
      intro hmem
      rcases List.mem_append.mp hmem with h | h
      · exact hstarN h
      · exact absurd h (by decide))]
    rw [if_neg (by simp [hP]), trimSuffixL_append]

theorem claimParam_core (ps : List PathPiece) (base : String) (hok : piecesOK ps = true) :
    claimParamSubstitution ⟨renderPieces ps⟩ base = base ++ ⟨renderWith numToken ps 1⟩ := by
  simp only [claimParamSubstitution]
  rw [replaceParams_render_nil ps _ 0 hok, renderWith_shift numToken ps 0]

theorem claim_core (ps : List PathPiece) (base : String) (hok : piecesOK ps = true) :
    claimSubstitution ⟨renderPieces ps⟩ base = base ++ ⟨renderWith numToken ps 1⟩ := by
  have hstarP : '*' ∉ renderPieces ps := star_not_mem_renderPieces ps hok
  simp only [claimSubstitution, goHasSuffix]
  rw [if_neg (by
    simp [not_isSuffixOf_star hstarP (show ('*' ∈ ['/', '*']) from by decide)])]
  exact claimParam_core ps base hok

theorem gss_wild (ps : List PathPiece) (base : String) (hok : piecesOK ps = true) :
    generateSubstitutionString ⟨renderPieces ps ++ "/*".data⟩ base =
      base ++ ⟨renderWith numToken ps 1⟩ := by
  have hseg : generatePathRegexSegment ⟨renderPieces ps ++ "/*".data⟩ =
      ⟨renderWith (fun _ => pathParaRegex.data) ps 0 ++ wildCardRegex.data⟩ := by
    simp only [generatePathRegexSegment]
    have hrp : replaceParams (fun _ => pathParaRegex.data)
        ((⟨renderPieces ps ++ "/*".data⟩ : String).data) 0 =
        renderWith (fun _ => pathParaRegex.data) ps 0 ++ "/*".data := by
      have h := replaceParams_render ps "/*".data (fun _ => pathParaRegex.data) 0 hok
      rw [replaceParams_slashstar] at h
      exact h
    rw [hrp, if_pos (isSuffixOf_append_self _ _), trimSuffixL_append]
  simp only [generateSubstitutionString]
  rw [hseg]
  rw [show (⟨renderWith (fun _ => pathParaRegex.data) ps 0 ++ wildCardRegex.data⟩ :
    String).data = renderWith (fun _ => pathParaRegex.data) ps 0 ++ wildCardRegex.data from rfl]
  rw [renumber_render ps 1 wildCardRegex.data hok, renumberAux_wildCard]
  rw [if_pos (isSuffixOf_append_self _ _), trimSuffixL_append]

theorem claim_wild (ps : List PathPiece) (base : String) (hok : piecesOK ps = true) :
    claimSubstitution ⟨renderPieces ps ++ "/*".data⟩ base =
      base ++ ⟨renderWith numToken ps 1⟩ := by
  simp only [claimSubstitution, goHasSuffix, goTrimSuffix]
  rw [if_pos (isSuffixOf_append_self _ _), trimSuffixL_append]
  exact claimParam_core ps base hok

/-- C7: corrected.  For every resource path that is a well-formed brace
template, optionally followed by a trailing slash-star wildcard, the regex
substitution string equals the endpoint base path followed by the resource
path with the i-th brace parameter replaced by a backslash index, PROVIDED
a trailing slash-star wildcard is first stripped (the original claim, which
keeps the wildcard in the substitution, is refuted by the counterexample
below).  The concrete S5 values of the claim do hold: for resource
/users/&#123;id&#125; with endpoint base path /v3 the substitution is
/v3/users/\1, and with base path /api the match regex is
^/api/users/([^/]+)(/\x7b0,1\x7d)(\?([^/]+))?$. -/
theorem generateSubstitutionString_param_claim :
    (∀ (ps : List PathPiece) (t : List Char) (base : String),
        piecesOK ps = true → (t = [] ∨ t = "/*".data) →
        generateSubstitutionString ⟨renderPieces ps ++ t⟩ base =
          claimSubstitution ⟨renderPieces ps ++ t⟩ base) ∧
    generateSubstitutionString "/users/{id}" "/v3" = "/v3/users/\\1" ∧
    generateRoutePath "/api" "/users/{id}" = "^/api/users/([^/]+)(/{0,1})(\\?([^/]+))?$" := by
  refine ⟨?_, by decide, by decide⟩
  intro ps t base hok ht
  rcases ht with rfl | rfl
  · rw [List.append_nil]
    rw [gss_core ps base hok, claim_core ps base hok]
  · rw [gss_wild ps base hok, claim_wild ps base hok]

/-- C7 counterexample: on the resource path /users/&#123;id&#125;/* the code
strips the wildcard before building the substitution, so the substitution is
not the base path followed by the parameter-replaced resource path as the
claim states. -/
theorem generateSubstitutionString_wildcard_counterexample :
    generateSubstitutionString "/users/{id}/*" "/v3" = "/v3/users/\\1" ∧
    claimParamSubstitution "/users/{id}/*" "/v3" = "/v3/users/\\1/*" ∧
    generateSubstitutionString "/users/{id}/*" "/v3" ≠
      claimParamSubstitution "/users/{id}/*" "/v3" :=
  ⟨by decide, by decide, by decide⟩

/-- C7 witness: the amended equivalence instantiated at the template of
/users/&#123;id&#125; followed by the slash-star wildcard and base path /v3. -/
theorem generateSubstitutionString_param_claim_witness :
    generateSubstitutionString ⟨renderPieces [PathPiece.lit '/', PathPiece.lit 'u', PathPiece.lit 's', PathPiece.lit 'e', PathPiece.lit 'r', PathPiece.lit 's', PathPiece.lit '/', PathPiece.param ['i', 'd']] ++ "/*".data⟩ "/v3" =
      claimSubstitution ⟨renderPieces [PathPiece.lit '/', PathPiece.lit 'u', PathPiece.lit 's', PathPiece.lit 'e', PathPiece.lit 'r', PathPiece.lit 's', PathPiece.lit '/', PathPiece.param ['i', 'd']] ++ "/*".data⟩ "/v3" :=
  generateSubstitutionString_param_claim.1
    [PathPiece.lit '/', PathPiece.lit 'u', PathPiece.lit 's', PathPiece.lit 'e', PathPiece.lit 'r', PathPiece.lit 's', PathPiece.lit '/', PathPiece.param ['i', 'd']]
    "/*".data "/v3" (by decide) (Or.inr rfl)
